import Mathlib

/-!
# luabind: class registration (`luabind/class.hpp`) and the Lua 5.1 shims
(`luabind/lua_include.hpp`)

A shallow embedding of the class builder `class_base` / `class_<T, X1, X2, X3>`
and of its publication step `commit`, in the default build configuration
(`NDEBUG`, `LUABIND_DONT_COPY_STRINGS` and `LUABIND_NO_ERROR_CHECKING` all
undefined: assertions are live, names are copied, signature printers are kept),
and of the shims `lua_absindex`, `lua_rawsetp` and `lua_rawgetp` that
`lua_include.hpp` defines for Lua versions before 5.2.

Conventions of the embedding

* a `const char*` is the string it points to (the maps order and compare their
  keys with `detail::ltstr`, i.e. by content);
* a pointer to a `class_rep` is the index of the descriptor in the list of
  descriptors owned by the Lua state, the null pointer is `none`;
* a function pointer is a term naming the function template instance it points to;
* a failed `assert` aborts the operation: the operation returns `none`.
-/

namespace luabind

/-! ## Type identities and C++ types -/

/-- The type identity `LUABIND_TYPE_INFO`. In the default configuration it is the
`std::type_info` of a C++ type, and `LUABIND_INVALID_TYPE_INFO` is the identity of
`detail::null_type`; every other type has an identity `id k`. -/
inductive LUABIND_TYPE_INFO where
  | invalid : LUABIND_TYPE_INFO
  | id (k : Nat) : LUABIND_TYPE_INFO
deriving DecidableEq, Repr

/-- The identity that stands for "no type". -/
abbrev LUABIND_INVALID_TYPE_INFO : LUABIND_TYPE_INFO := LUABIND_TYPE_INFO.invalid

/-- The comparison `LUABIND_TYPE_INFO_EQUAL(a, b)`. -/
def LUABIND_TYPE_INFO_EQUAL (a b : LUABIND_TYPE_INFO) : Bool := decide (a = b)

/-- A C++ object type other than `detail::null_type`, as far as the binder looks at it:
its identity, `sizeof` and `boost::alignment_of` (both of type `std::size_t`, unbounded
here). An object type has `sizeof` at least 1. -/
structure cpp_type where
  id : Nat
  size : Nat
  alignment : Nat
  size_pos : 0 < size
deriving DecidableEq

/-- Wrap-around of a C `int` (32 bit, two's complement): the value an `int` takes when a
wider integer is narrowed to it. -/
def wrap_int (x : Int) : Int := (x + 2147483648) % 4294967296 - 2147483648

/-- The identity `LUABIND_TYPEID(X)` of an object type. -/
def LUABIND_TYPEID (X : cpp_type) : LUABIND_TYPE_INFO := LUABIND_TYPE_INFO.id X.id

/-- A policy list type; `none` is `detail::null_type` (no policies). -/
abbrev policies_t := Option Nat

/-! ## Function pointers stored in builders and descriptors -/

/-- Values of `void(*m_destructor)(void*)`. -/
inductive destructor_t where
  | null : destructor_t
  | destruct_only_s (HeldType : cpp_type) : destructor_t
  | delete_s (T : cpp_type) : destructor_t
deriving DecidableEq

/-- Values of `void*(*m_extractor)(void*)`. -/
inductive extractor_fun where
  | null : extractor_fun
  | extract_underlying_type (UnderlyingT HeldT : cpp_type) : extractor_fun
deriving DecidableEq

/-- Values of `void(*m_construct_held_type)(void*, void*)`. -/
inductive held_constructor where
  | null : held_constructor
  | internal_construct_held_type (HeldType T : cpp_type) : held_constructor
deriving DecidableEq

/-- A native function or member pointer handed to the binder: which function it is and
the parameter types of its static type `F`. -/
structure native_fn where
  id : Nat
  params : List LUABIND_TYPE_INFO
deriving DecidableEq

/-- The call thunk type `function_callback_s<HeldType, T, F, Policies>::type`. -/
inductive function_callback where
  | function_callback_null_type (T : cpp_type) (Policies : policies_t) (f : native_fn)
  | function_callback_non_null (HeldType T : cpp_type) (Policies : policies_t) (f : native_fn)
deriving DecidableEq

/-- The record `detail::overload_rep` of one method overload, as `internal_def_s::apply`
fills it: the function and its policies, the matcher
`match_function_callback_s<T, F, Policies>::apply`, the call thunk and the signature
printer `get_member_signature<F>::apply`. -/
structure overload_rep where
  f : native_fn
  policies : policies_t
  match_fun : List LUABIND_TYPE_INFO × policies_t
  call_fun : function_callback
  sig_fun : List LUABIND_TYPE_INFO
deriving DecidableEq

/-- Parameter types of an overload (the static type `F` of its function). -/
def overload_rep.params (o : overload_rep) : List LUABIND_TYPE_INFO := o.f.params

/-- The record `detail::method_rep`: name, overload set and the back-reference to the
class descriptor (a null pointer until publication). -/
structure method_rep where
  name : String
  overloads : List overload_rep
  crep : Option Nat
deriving DecidableEq

/-- A default constructed `method_rep`, as `std::map::operator[]` inserts it. -/
def method_rep.default : method_rep := { name := "", overloads := [], crep := none }

/-- Modelled from the spec: `method_rep::add_overload` (luabind/detail/method_rep.hpp is
not among the sources). The overload set is "an insertion-ordered sequence of overload
records" and "no two overloads are deduplicated by signature". -/
def method_rep.add_overload (m : method_rep) (o : overload_rep) : method_rep :=
  { m with overloads := m.overloads ++ [o] }

/-- The bound callables stored as property getters and setters
(`boost::function2<int, lua_State*, int>`). For `set_caller` the first component is the
policy type the caller is instantiated with and the second the policy object passed to it. -/
inductive property_fn where
  | get_caller (Policies : policies_t) (g : Nat)
  | set_caller (Policies : policies_t) (policies : policies_t) (s : Nat)
  | auto_get (Policies : policies_t) (member_ptr : Nat)
  | auto_set (Policies : policies_t) (member_ptr : Nat)
deriving DecidableEq

/-- The record `detail::class_rep::callback`. -/
structure callback where
  func : property_fn
  pointer_offset : Int
deriving DecidableEq

/-- The operator implementations whose `execute` / `match` members are registered. -/
inductive operator_impl where
  | operator_unwrapper (Policies : policies_t) (op_id : Nat) (left_t right_t : LUABIND_TYPE_INFO)
  | application_operator (Signature : List LUABIND_TYPE_INFO) (Constant : Bool)
      (Policies : policies_t)
deriving DecidableEq

/-- The record `detail::class_rep::operator_callback`. -/
structure operator_callback where
  func : operator_impl
  match_fun : operator_impl
  arity : Int
  sig_fun : List LUABIND_TYPE_INFO
deriving DecidableEq

/-- The record `detail::construct_rep::overload_t` of one constructor overload. -/
structure overload_t where
  construct_fun : policies_t × List LUABIND_TYPE_INFO
  wrapped_construct_fun : Option (cpp_type × policies_t × List LUABIND_TYPE_INFO)
  match_fun : List LUABIND_TYPE_INFO × policies_t
  sig_fun : List LUABIND_TYPE_INFO
  arity : Int
deriving DecidableEq

/-- The constructor overload set `detail::construct_rep`. -/
structure construct_rep where
  overloads : List overload_t
deriving DecidableEq

/-- The entry `class_base::base_desc` of the builder's base list. -/
structure base_desc where
  type : LUABIND_TYPE_INFO
  ptr_offset : Int
deriving DecidableEq

/-- The edge `detail::class_rep::base_info` of a descriptor: offset and the pointer to the
descriptor of the base (possibly null). -/
structure base_info where
  pointer_offset : Int
  base : Option Nat
deriving DecidableEq

/-! ## String keyed maps (`std::map<const char*, V, detail::ltstr>`) -/

/-- The lookup `m.find(k)` by string content. -/
def map_find {V : Type} (k : String) : List (String × V) → Option V
  | [] => none
  | (k', v) :: rest => if k' = k then some v else map_find k rest

/-- The assignment `m[k] = v`: overwrite the value of an existing key, insert otherwise. -/
def map_set {V : Type} (k : String) (v : V) : List (String × V) → List (String × V)
  | [] => [(k, v)]
  | (k', v') :: rest => if k' = k then (k', v) :: rest else (k', v') :: map_set k v rest

/-! ## Class descriptors, the class registry and the Lua state -/

/-- Modelled from the spec: the class descriptor `detail::class_rep`
(luabind/detail/class_rep.hpp is not among the sources). It records the values its
constructor is given and the tables `commit` fills; `n` is `detail::number_of_operators`. -/
structure class_rep (n : Nat) where
  m_type : LUABIND_TYPE_INFO
  m_name : String
  m_destructor : destructor_t
  m_held_type : LUABIND_TYPE_INFO
  m_const_holder_type : LUABIND_TYPE_INFO
  m_extractor : extractor_fun
  m_construct_held_type : held_constructor
  m_held_type_size : Int
  m_held_type_alignment : Int
  m_methods : List (String × method_rep)
  m_constructor : construct_rep
  m_strings : List String
  m_getters : List (String × callback)
  m_setters : List (String × callback)
  m_operators : Fin n → List operator_callback
  m_static_constants : List (String × Int)
  m_bases : List base_info

/-- Modelled from the spec: the constructor of `detail::class_rep`. A descriptor "is
created once, populated during a build phase": it starts with the values passed in and
with empty tables. -/
def class_rep.ctor {n : Nat} (type : LUABIND_TYPE_INFO) (name : String)
    (destructor : destructor_t) (held_type const_holder_type : LUABIND_TYPE_INFO)
    (extractor : extractor_fun) (construct_held_type : held_constructor)
    (held_type_size held_type_alignment : Int) : class_rep n :=
  { m_type := type
    m_name := name
    m_destructor := destructor
    m_held_type := held_type
    m_const_holder_type := const_holder_type
    m_extractor := extractor
    m_construct_held_type := construct_held_type
    m_held_type_size := held_type_size
    m_held_type_alignment := held_type_alignment
    m_methods := []
    m_constructor := { overloads := [] }
    m_strings := []
    m_getters := []
    m_setters := []
    m_operators := fun _ => []
    m_static_constants := []
    m_bases := [] }

/-- Modelled from the spec: `class_rep::add_base_class`, the mutator that adds a base
edge to the descriptor's "ordered list of base edges". -/
def class_rep.add_base_class {n : Nat} (c : class_rep n) (base : base_info) : class_rep n :=
  { c with m_bases := c.m_bases ++ [base] }

/-- Modelled from the spec: `detail::class_registry`
(luabind/detail/class_registry.hpp is not among the sources), the "mapping from type
identity → class descriptor reference" of one Lua state. -/
structure class_registry where
  m_classes : List (LUABIND_TYPE_INFO × Nat)
deriving DecidableEq

/-- Modelled from the spec: `class_registry::find_class`, "find(identity) → descriptor |
not-found: pure lookup"; not-found is the null pointer. -/
def class_registry.find_class (r : class_registry) (info : LUABIND_TYPE_INFO) : Option Nat :=
  r.m_classes.lookup info

/-- Modelled from the spec: `class_registry::add_class`, "register(identity, descriptor):
binds identity → descriptor unless already bound ... No error on duplicate". -/
def class_registry.add_class (r : class_registry) (info : LUABIND_TYPE_INFO) (crep : Nat) :
    class_registry :=
  match r.find_class info with
  | some _ => r
  | none => { m_classes := r.m_classes ++ [(info, crep)] }

/-- The part of `lua_State` that `commit` works on: the class registry
(`class_registry::get_registry(L)`), the `class_rep` userdata blocks allocated so far (a
descriptor pointer is an index into this list) and the table of the current scope
(`scope_stack::top(L)`), which maps class names to descriptor userdata. -/
structure lua_State (n : Nat) where
  registry : class_registry
  userdata : List (class_rep n)
  scope : List (String × Nat)

/-! ## The builder `class_base` -/

/-- The builder `class_base`; `n` is `detail::number_of_operators`. -/
structure class_base (n : Nat) where
  m_cloned : Bool
  m_name : String
  m_methods : List (String × method_rep)
  m_getters : List (String × callback)
  m_setters : List (String × callback)
  m_operators : Fin n → List operator_callback
  m_static_constants : List (String × Int)
  m_bases : List base_desc
  m_constructor : construct_rep
  m_destructor : destructor_t
  m_extractor : extractor_fun
  m_construct_held_type : held_constructor
  m_held_type_size : Int
  m_held_type_alignment : Int
  m_type : LUABIND_TYPE_INFO
  m_held_type : LUABIND_TYPE_INFO
  m_const_holder_type : LUABIND_TYPE_INFO
  m_strings : List String

namespace class_base

variable {n : Nat}

/-- The constructor `class_base(const char* name)`. It copies the name and clears
`m_cloned`; the containers start empty. The scalar members are not initialised by the
constructor: `class_::init` and `clone` assign every one of them before it is read, and
the embedding starts them at null / 0 / invalid. -/
def ctor (name : String) : class_base n :=
  { m_cloned := false
    m_name := name
    m_methods := []
    m_getters := []
    m_setters := []
    m_operators := fun _ => []
    m_static_constants := []
    m_bases := []
    m_constructor := { overloads := [] }
    m_destructor := destructor_t.null
    m_extractor := extractor_fun.null
    m_construct_held_type := held_constructor.null
    m_held_type_size := 0
    m_held_type_alignment := 0
    m_type := LUABIND_INVALID_TYPE_INFO
    m_held_type := LUABIND_INVALID_TYPE_INFO
    m_const_holder_type := LUABIND_INVALID_TYPE_INFO
    m_strings := [name] }

/-- The mutator `add_static_constant`. -/
def add_static_constant (self : class_base n) (name : String) (val : Int) : class_base n :=
  { self with m_static_constants := map_set name val self.m_static_constants }

/-- The setter `set_type`. -/
def set_type (self : class_base n) (t : LUABIND_TYPE_INFO) : class_base n :=
  { self with m_type := t }

/-- The setter `set_held_type`. -/
def set_held_type (self : class_base n) (t : LUABIND_TYPE_INFO) : class_base n :=
  { self with m_held_type := t }

/-- The setter `set_const_holder_type`. -/
def set_const_holder_type (self : class_base n) (t : LUABIND_TYPE_INFO) : class_base n :=
  { self with m_const_holder_type := t }

/-- The setter `set_extractor`. -/
def set_extractor (self : class_base n) (f : extractor_fun) : class_base n :=
  { self with m_extractor := f }

/-- The setter `set_held_type_constructor`. -/
def set_held_type_constructor (self : class_base n) (f : held_constructor) : class_base n :=
  { self with m_construct_held_type := f }

/-- The setter `set_destructor`. -/
def set_destructor (self : class_base n) (f : destructor_t) : class_base n :=
  { self with m_destructor := f }

/-- The setter `set_held_type_size`. -/
def set_held_type_size (self : class_base n) (s : Int) : class_base n :=
  { self with m_held_type_size := s }

/-- The setter `set_held_type_alignment`. -/
def set_held_type_alignment (self : class_base n) (k : Int) : class_base n :=
  { self with m_held_type_alignment := k }

/-- The mutator `add_getter`: the callback gets offset 0, the name is copied into
`m_strings` and the getter map is assigned at that name. -/
def add_getter (self : class_base n) (name : String) (g : property_fn) : class_base n :=
  let c : callback := { func := g, pointer_offset := 0 }
  { self with
    m_strings := self.m_strings ++ [name]
    m_getters := map_set name c self.m_getters }

/-- The mutator `add_setter`. -/
def add_setter (self : class_base n) (name : String) (s : property_fn) : class_base n :=
  let c : callback := { func := s, pointer_offset := 0 }
  { self with
    m_strings := self.m_strings ++ [name]
    m_setters := map_set name c self.m_setters }

/-- The mutator `add_base`. -/
def add_base (self : class_base n) (b : base_desc) : class_base n :=
  { self with m_bases := self.m_bases ++ [b] }

/-- The mutator `add_constructor`. -/
def add_constructor (self : class_base n) (o : overload_t) : class_base n :=
  { self with m_constructor := { overloads := self.m_constructor.overloads ++ [o] } }

/-- The mutator `add_method`: `m_methods[name]` is looked up (default constructed when
absent), renamed to the copied string, given the overload, and its `crep` is reset. -/
def add_method (self : class_base n) (name : String) (o : overload_rep) : class_base n :=
  let method : method_rep := (map_find name self.m_methods).getD method_rep.default
  let method := { method with name := name }
  let method := method.add_overload o
  let method := { method with crep := none }
  { self with
    m_strings := self.m_strings ++ [name]
    m_methods := map_set name method self.m_methods }

/-- The mutator `add_operator` (with error checking, so the signature printer is stored). -/
def add_operator (self : class_base n) (op_id : Fin n) (func matcher : operator_impl)
    (sig : List LUABIND_TYPE_INFO) (arity : Int) : class_base n :=
  let o : operator_callback :=
    { func := func, match_fun := matcher, arity := arity, sig_fun := sig }
  { self with
    m_operators := fun i => if i = op_id then self.m_operators i ++ [o] else self.m_operators i }

/-- The accessor `name()`. -/
def name (self : class_base n) : String := self.m_name

/-- The registrations of the held type in `commit`: when the builder has a held type that
the registry does not know, the held type and the const holder are bound to `crep`. -/
def commit_held_type (self : class_base n) (r : class_registry) (crep : Nat) : class_registry :=
  if !(LUABIND_TYPE_INFO_EQUAL self.m_held_type LUABIND_INVALID_TYPE_INFO) then
    match r.find_class self.m_held_type with
    | none => (r.add_class self.m_held_type crep).add_class self.m_const_holder_type crep
    | some _ => r
  else r

/-- The base loop of `commit`: one `base_info` per entry of `m_bases`, in order, carrying
the entry's offset and whatever the registry holds for the entry's type. -/
def commit_bases (r : class_registry) (bases : List base_desc) (crep : class_rep n) :
    class_rep n :=
  bases.foldl
    (fun c i => c.add_base_class { pointer_offset := i.ptr_offset, base := r.find_class i.type })
    crep

/-- The operation `commit(lua_State* L)`. The result is `none` when an assertion fails;
otherwise the new Lua state and the builder as `commit` leaves it. The descriptor is
allocated as a userdata block (its pointer is the next index), registered, handed the
builder's tables by swapping, given its base edges, and stored in the scope table under
the class name. -/
def commit (L : lua_State n) (self : class_base n) : Option (lua_State n × class_base n) :=
  if self.m_cloned then none
  else
    let crep : Nat := L.userdata.length
    let rep : class_rep n := class_rep.ctor self.m_type self.m_name self.m_destructor
      self.m_held_type self.m_const_holder_type self.m_extractor self.m_construct_held_type
      self.m_held_type_size self.m_held_type_alignment
    let r := L.registry.add_class self.m_type crep
    let r := self.commit_held_type r crep
    let methods := self.m_methods.map (fun i => (i.1, { i.2 with crep := some crep }))
    if !rep.m_strings.isEmpty then none
    else
      let rep' : class_rep n :=
        { rep with
          m_methods := methods
          m_constructor := self.m_constructor
          m_strings := self.m_strings
          m_getters := self.m_getters
          m_setters := self.m_setters
          m_operators := self.m_operators
          m_static_constants := self.m_static_constants }
      let self' : class_base n :=
        { self with
          m_methods := rep.m_methods
          m_constructor := rep.m_constructor
          m_strings := rep.m_strings
          m_getters := rep.m_getters
          m_setters := rep.m_setters
          m_operators := rep.m_operators
          m_static_constants := rep.m_static_constants }
      let rep' := commit_bases r self.m_bases rep'
      some ({ registry := r
              userdata := L.userdata ++ [rep']
              scope := map_set self.m_name crep L.scope }, self')

/-- The operation `clone()`, a destructive copy. The result is `none` when the assertion
`m_cloned == false` fails; otherwise the builder left behind and the returned copy. -/
def clone (self : class_base n) : Option (class_base n × class_base n) :=
  if self.m_cloned != false then none
  else
    let ret0 : class_base n := ctor self.m_name
    let ret : class_base n :=
      { ret0 with
        m_getters := self.m_getters
        m_setters := self.m_setters
        m_operators := self.m_operators
        m_static_constants := self.m_static_constants
        m_destructor := self.m_destructor
        m_extractor := self.m_extractor
        m_construct_held_type := self.m_construct_held_type
        m_held_type_size := self.m_held_type_size
        m_held_type_alignment := self.m_held_type_alignment
        m_bases := self.m_bases
        m_methods := self.m_methods
        m_constructor := self.m_constructor
        m_name := self.m_name
        m_type := self.m_type
        m_held_type := self.m_held_type
        m_const_holder_type := self.m_const_holder_type
        m_strings := self.m_strings }
    let self' : class_base n :=
      { self with
        m_cloned := true
        m_getters := ret0.m_getters
        m_setters := ret0.m_setters
        m_operators := ret0.m_operators
        m_static_constants := ret0.m_static_constants
        m_bases := ret0.m_bases
        m_methods := ret0.m_methods
        m_constructor := ret0.m_constructor
        m_strings := ret0.m_strings }
    some (self', ret)

end class_base

/-! ## Held type selectors -/

/-- The selector `get_const_holder(...)`, the overload taken when no const holder is
declared for the held type. -/
def get_const_holder : LUABIND_TYPE_INFO := LUABIND_INVALID_TYPE_INFO

/-- The selector `internal_held_type_extractor<HeldType>::apply(detail::type<T>)`;
`none` is the specialisation for `detail::null_type`. -/
def internal_held_type_extractor.apply (HeldType : Option cpp_type) (T : cpp_type) :
    extractor_fun :=
  match HeldType with
  | some H => extractor_fun.extract_underlying_type T H
  | none => extractor_fun.null

/-- The selector `internal_held_type<HeldType>::apply()`. -/
def internal_held_type.apply (HeldType : Option cpp_type) : LUABIND_TYPE_INFO :=
  match HeldType with
  | some H => LUABIND_TYPEID H
  | none => LUABIND_INVALID_TYPE_INFO

/-- The selector `internal_held_type_constructor<HeldType>::apply(detail::type<T>)`. -/
def internal_held_type_constructor.apply (HeldType : Option cpp_type) (T : cpp_type) :
    held_constructor :=
  match HeldType with
  | some H => held_constructor.internal_construct_held_type H T
  | none => held_constructor.null

/-- The selector `internal_held_type_size<HeldType>::apply()`: `sizeof(HeldType)`, a
`std::size_t`, returned as `int`. -/
def internal_held_type_size.apply (HeldType : Option cpp_type) : Int :=
  match HeldType with
  | some H => wrap_int (H.size : Int)
  | none => 0

/-- The selector `internal_held_type_destructor<HeldType>::apply(detail::type<T>)`. -/
def internal_held_type_destructor.apply (HeldType : Option cpp_type) (T : cpp_type) :
    destructor_t :=
  match HeldType with
  | some H => destructor_t.destruct_only_s H
  | none => destructor_t.delete_s T

/-- The selector `get_holder_alignment<T>::apply()`: `boost::alignment_of<T>::value`, a
`std::size_t`, returned as `int`. -/
def get_holder_alignment.apply (HeldType : Option cpp_type) : Int :=
  match HeldType with
  | some H => wrap_int (H.alignment : Int)
  | none => 0

/-! ## The class template `class_<T, X1, X2, X3>` -/

/-- What luabind/detail/operator_id.hpp (not among the sources) supplies to `class_`: the
identifier `detail::op_call` and the predicate `detail::is_unary` on the `n` operator
identifiers. -/
structure operator_ids (n : Nat) where
  op_call : Fin n
  is_unary : Fin n → Bool

/-- Modelled from the spec: `detail::calc_arity<N>::apply`
(luabind/detail/calc_arity.hpp is not among the sources). Signature introspection hands
over "an already-typed parameter list per overload" and its arity is the number `N` of
parameters. -/
def calc_arity.apply (Signature : List LUABIND_TYPE_INFO) (_Policies : policies_t) : Int :=
  (Signature.length : Int)

/-- An instance of the class template, with its template arguments resolved: the
registered type `T`, the wrapper type and held type picked out of `X1, X2, X3` (`none` is
`detail::null_type`), what `get_const_holder` resolves to for the held type, and the
arguments of `bases<...>` in order, `none` for a `detail::null_type` argument and
otherwise the base with `detail::ptr_offset(type<T>, type<To>)`. -/
structure class_args where
  T : cpp_type
  WrappedType : Option cpp_type
  HeldType : Option cpp_type
  const_holder : LUABIND_TYPE_INFO
  Base : List (Option (cpp_type × Int))

/-- The third argument of the three argument `property`: a setter, or a policy list when
`detail::is_policy_cons<MaybeSetter>` holds. -/
inductive maybe_setter where
  | policy_cons (policies : Nat)
  | setter (s : Nat)
deriving DecidableEq

namespace class_

variable {n : Nat}

/-- The two overloads of `gen_base_info`: a base is recorded with its identity and
offset, `detail::null_type` is skipped. -/
def gen_base_info (self : class_base n) (To : Option (cpp_type × Int)) : class_base n :=
  match To with
  | some (B, off) => self.add_base { type := LUABIND_TYPEID B, ptr_offset := off }
  | none => self

/-- The member `generate_baseclass_list`: `gen_base_info` for each argument of `bases<...>`. -/
def generate_baseclass_list (self : class_base n) (Base : List (Option (cpp_type × Int))) :
    class_base n :=
  Base.foldl gen_base_info self

/-- The member `init()`. -/
def init (A : class_args) (self : class_base n) : class_base n :=
  let self := self.set_type (LUABIND_TYPEID A.T)
  let self := self.set_held_type (internal_held_type.apply A.HeldType)
  let self := self.set_const_holder_type A.const_holder
  let self := self.set_extractor (internal_held_type_extractor.apply A.HeldType A.T)
  let self := self.set_held_type_constructor (internal_held_type_constructor.apply A.HeldType A.T)
  let self := self.set_held_type_size (internal_held_type_size.apply A.HeldType)
  let self := self.set_destructor (internal_held_type_destructor.apply A.HeldType A.T)
  let self := self.set_held_type_alignment (get_holder_alignment.apply A.HeldType)
  generate_baseclass_list self A.Base

/-- The constructors `class_(const char* name)` and `class_(lua_State* L, const char* name)`:
`class_base(name)` followed by `init()`. -/
def ctor (A : class_args) (name : String) : class_base n :=
  init A (class_base.ctor name)

/-- The member `internal_def_s<Policies>::apply(name, f, c)` for a function. -/
def internal_def_s.apply (A : class_args) (Policies : policies_t) (name : String)
    (f : native_fn) (c : class_base n) : class_base n :=
  let call_t : function_callback :=
    match A.HeldType with
    | none => function_callback.function_callback_null_type A.T Policies f
    | some H => function_callback.function_callback_non_null H A.T Policies f
  let o : overload_rep :=
    { f := f
      policies := Policies
      match_fun := (f.params, Policies)
      call_fun := call_t
      sig_fun := f.params }
  c.add_method name o

/-- The member `internal_def_s<Policies>::apply(constructor<...>, c)` for a constructor. -/
def internal_def_s.apply_constructor (A : class_args) (Policies : policies_t)
    (sig : List LUABIND_TYPE_INFO) (c : class_base n) : class_base n :=
  let o : overload_t :=
    { construct_fun := (Policies, sig)
      wrapped_construct_fun := A.WrappedType.map (fun W => (W, Policies, sig))
      match_fun := (sig, Policies)
      sig_fun := sig
      arity := calc_arity.apply sig Policies }
  c.add_constructor o

/-- The registrations a `class_` accepts: one constructor per public registration member
of the template (overloads are told apart by a suffix), and `add_static_constant`, the
public member of `class_base` through which `enum_` values arrive. -/
inductive op (n : Nat) where
  | def_ (name : String) (f : native_fn)
  | def_policies (name : String) (f : native_fn) (policies : policies_t)
  | def_constructor (sig : List LUABIND_TYPE_INFO)
  | def_constructor_policies (sig : List LUABIND_TYPE_INFO) (policies : policies_t)
  | property (name : String) (g : Nat)
  | property_maybe_setter (name : String) (g : Nat) (s : maybe_setter)
  | property_get_policies (name : String) (g s : Nat) (get_policies : policies_t)
  | property_get_set_policies (name : String) (g s : Nat) (get_policies set_policies : policies_t)
  | def_readonly (name : String) (member_ptr : Nat)
  | def_readonly_policies (name : String) (member_ptr : Nat) (policies : policies_t)
  | def_readwrite (name : String) (member_ptr : Nat)
  | def_readwrite_get_policies (name : String) (member_ptr : Nat) (get_policies : policies_t)
  | def_readwrite_get_set_policies (name : String) (member_ptr : Nat)
      (get_policies set_policies : policies_t)
  | def_operator_policies (op_id : Fin n) (left_t right_t : LUABIND_TYPE_INFO)
      (policies : policies_t)
  | def_operator (op_id : Fin n) (left_t right_t : LUABIND_TYPE_INFO)
  | def_application_operator (Signature : List LUABIND_TYPE_INFO) (Constant : Bool)
  | def_application_operator_policies (Signature : List LUABIND_TYPE_INFO) (Constant : Bool)
      (policies : policies_t)
  | add_static_constant (name : String) (val : Int)

/-- The member `property_impl`, selected by `is_policy_cons<MaybeSetter>`. -/
def property_impl (self : class_base n) (name : String) (g : Nat) (s : maybe_setter) :
    class_base n :=
  match s with
  | maybe_setter.policy_cons p => self.add_getter name (property_fn.get_caller (some p) g)
  | maybe_setter.setter s =>
      (self.add_getter name (property_fn.get_caller none g)).add_setter name
        (property_fn.set_caller none none s)

/-- The registration of an operator overload, shared by the two `def(operator_<...>)`
overloads: `add_operator` with arity `is_unary(get_id()) ? 1 : 2`. -/
def def_operator (ids : operator_ids n) (self : class_base n) (Policies : policies_t)
    (op_id : Fin n) (left_t right_t : LUABIND_TYPE_INFO) : class_base n :=
  let op_type := operator_impl.operator_unwrapper Policies op_id.val left_t right_t
  self.add_operator op_id op_type op_type [left_t, right_t]
    (if ids.is_unary op_id then 1 else 2)

/-- The registration of an application operator, shared by the two
`def(application_operator<...>*)` overloads: `add_operator` under `op_call` with the
arity of the signature plus one. -/
def def_application_operator (ids : operator_ids n) (self : class_base n)
    (Policies : policies_t) (Signature : List LUABIND_TYPE_INFO) (Constant : Bool) :
    class_base n :=
  let op_t := operator_impl.application_operator Signature Constant Policies
  let arity := calc_arity.apply Signature Policies
  self.add_operator ids.op_call op_t op_t Signature (arity + 1)

/-- One registration call on a `class_<T, X1, X2, X3>` builder. -/
def apply (A : class_args) (ids : operator_ids n) (self : class_base n) :
    op n → class_base n
  | op.def_ name f => internal_def_s.apply A none name f self
  | op.def_policies name f policies => internal_def_s.apply A policies name f self
  | op.def_constructor sig => internal_def_s.apply_constructor A none sig self
  | op.def_constructor_policies sig policies =>
      internal_def_s.apply_constructor A policies sig self
  | op.property name g => self.add_getter name (property_fn.get_caller none g)
  | op.property_maybe_setter name g s => property_impl self name g s
  | op.property_get_policies name g s get_policies =>
      (self.add_getter name (property_fn.get_caller get_policies g)).add_setter name
        (property_fn.set_caller none none s)
  | op.property_get_set_policies name g s get_policies set_policies =>
      (self.add_getter name (property_fn.get_caller get_policies g)).add_setter name
        (property_fn.set_caller get_policies set_policies s)
  | op.def_readonly name member_ptr =>
      self.add_getter name (property_fn.auto_get none member_ptr)
  | op.def_readonly_policies name member_ptr policies =>
      self.add_getter name (property_fn.auto_get policies member_ptr)
  | op.def_readwrite name member_ptr =>
      (self.add_getter name (property_fn.auto_get none member_ptr)).add_setter name
        (property_fn.auto_set none member_ptr)
  | op.def_readwrite_get_policies name member_ptr get_policies =>
      (self.add_getter name (property_fn.auto_get get_policies member_ptr)).add_setter name
        (property_fn.auto_set none member_ptr)
  | op.def_readwrite_get_set_policies name member_ptr get_policies set_policies =>
      (self.add_getter name (property_fn.auto_get get_policies member_ptr)).add_setter name
        (property_fn.auto_set set_policies member_ptr)
  | op.def_operator_policies op_id left_t right_t policies =>
      def_operator ids self policies op_id left_t right_t
  | op.def_operator op_id left_t right_t => def_operator ids self none op_id left_t right_t
  | op.def_application_operator Signature Constant =>
      def_application_operator ids self none Signature Constant
  | op.def_application_operator_policies Signature Constant policies =>
      def_application_operator ids self policies Signature Constant
  | op.add_static_constant name val => self.add_static_constant name val

/-- A sequence of registration calls, applied left to right. -/
def apply_all (A : class_args) (ids : operator_ids n) (self : class_base n)
    (ops : List (op n)) : class_base n :=
  ops.foldl (apply A ids) self

end class_

/-! ## Sequences of publications and sample inputs -/

/-- The Lua state after `commit` (unchanged when an assertion stops `commit`). -/
def commit_state {n : Nat} (L : lua_State n) (b : class_base n) : lua_State n :=
  match b.commit L with
  | some r => r.1
  | none => L

/-- A sequence of builders committed one after the other; `none` when an assertion fails. -/
def commit_all {n : Nat} (L : lua_State n) : List (class_base n) → Option (lua_State n)
  | [] => some L
  | b :: bs =>
    match b.commit L with
    | some r => commit_all r.1 bs
    | none => none

/-- A Lua state in which no class has been registered. -/
def empty_state : lua_State 11 :=
  { registry := { m_classes := [] }, userdata := [], scope := [] }

/-- Sample operator identifiers: eleven operators, `op_call` is number 8 and the last two
are unary. -/
def sample_ids : operator_ids 11 :=
  { op_call := 8, is_unary := fun i => decide (9 ≤ i.val) }

/-- Sample instance `class_<A, HA>`: a class held by a smart pointer, no const holder
declared. -/
def sample_A : class_args :=
  { T := cpp_type.mk 1 24 8 (by decide)
    WrappedType := none
    HeldType := some (cpp_type.mk 2 16 8 (by decide))
    const_holder := get_const_holder
    Base := [] }

/-- Sample instance `class_<B, HB>`: a second class held by a smart pointer, no const holder
declared. -/
def sample_B : class_args :=
  { T := cpp_type.mk 3 8 8 (by decide)
    WrappedType := none
    HeldType := some (cpp_type.mk 4 16 8 (by decide))
    const_holder := get_const_holder
    Base := [] }

/-- Sample instance `class_<C>`: a class with no held type. -/
def sample_C : class_args :=
  { T := cpp_type.mk 5 8 8 (by decide)
    WrappedType := none
    HeldType := none
    const_holder := get_const_holder
    Base := [] }

/-- The state reached from the empty state by publishing `class_<A, HA>("A")`. -/
def state_A : lua_State 11 := commit_state empty_state (class_.ctor sample_A "A")

/-- Sample instance `class_<HA>`: the smart pointer type of `sample_A` registered as a
class of its own, with no held type. -/
def sample_H : class_args :=
  { T := cpp_type.mk 2 16 8 (by decide)
    WrappedType := none
    HeldType := none
    const_holder := get_const_holder
    Base := [] }

/-- The state reached from the empty state by publishing `class_<HA>("HA")`. -/
def state_H : lua_State 11 := commit_state empty_state (class_.ctor sample_H "HA")

/-- Sample builder `class_<D, HA>("D")`: a class with identity 7 whose held type is the
type registered by `sample_H` and for which `get_const_holder` resolves to the identity of
the class itself. -/
def sample_alias : class_base 11 :=
  class_.ctor
    { T := cpp_type.mk 7 8 8 (by decide)
      WrappedType := none
      HeldType := some (cpp_type.mk 2 16 8 (by decide))
      const_holder := LUABIND_TYPE_INFO.id 7
      Base := [] } "D"

/-! ## Representation modes -/

/-- The values that fix how objects of a class are stored: held-type identity, held-type
size and alignment, extractor, held-type constructor and destructor. -/
structure representation where
  held_type : LUABIND_TYPE_INFO
  held_type_size : Int
  held_type_alignment : Int
  extractor : extractor_fun
  construct_held_type : held_constructor
  destructor : destructor_t
deriving DecidableEq

/-- The representation values of a builder. -/
def class_base.representation {n : Nat} (b : class_base n) : representation :=
  { held_type := b.m_held_type
    held_type_size := b.m_held_type_size
    held_type_alignment := b.m_held_type_alignment
    extractor := b.m_extractor
    construct_held_type := b.m_construct_held_type
    destructor := b.m_destructor }

/-- The representation values of a descriptor. -/
def class_rep.representation {n : Nat} (c : class_rep n) : representation :=
  { held_type := c.m_held_type
    held_type_size := c.m_held_type_size
    held_type_alignment := c.m_held_type_alignment
    extractor := c.m_extractor
    construct_held_type := c.m_construct_held_type
    destructor := c.m_destructor }

/-- Held mode for the held type `H`: the held-type identity is the (valid) identity of `H`,
the size is positive, extractor and held-type constructor are not null and the destructor
is the destruct-only function of `H`. -/
def held_mode (H : cpp_type) (r : representation) : Prop :=
  r.held_type = LUABIND_TYPEID H ∧ r.held_type ≠ LUABIND_INVALID_TYPE_INFO ∧
  0 < r.held_type_size ∧ r.extractor ≠ extractor_fun.null ∧
  r.construct_held_type ≠ held_constructor.null ∧
  r.destructor = destructor_t.destruct_only_s H

/-- Raw mode for the class `T`: no held-type identity, size and alignment 0, extractor and
held-type constructor null and the destructor is the plain delete of `T`. -/
def raw_mode (T : cpp_type) (r : representation) : Prop :=
  r.held_type = LUABIND_INVALID_TYPE_INFO ∧ r.held_type_size = 0 ∧
  r.held_type_alignment = 0 ∧ r.extractor = extractor_fun.null ∧
  r.construct_held_type = held_constructor.null ∧ r.destructor = destructor_t.delete_s T

/-- Sample builder: `class_<B, HB>("B")` after a method, a property and a read-only member
have been registered. -/
def sample_B_builder : class_base 11 :=
  class_.apply_all sample_B sample_ids (class_.ctor sample_B "B")
    [class_.op.def_ "f" { id := 1, params := [LUABIND_TYPE_INFO.id 3] },
     class_.op.property_maybe_setter "p" 2 (maybe_setter.setter 3),
     class_.op.def_readonly "x" 4]

/-- Sample instance `class_<G, HG>`: a class whose held type embeds a buffer of 2 GiB, so
that `sizeof(HG)` is `2 ^ 31 + 8`. -/
def sample_huge : class_args :=
  { T := cpp_type.mk 20 8 8 (by decide)
    WrappedType := none
    HeldType := some (cpp_type.mk 21 2147483656 8 (by decide))
    const_holder := get_const_holder
    Base := [] }

/-! ## Held objects in userdata storage -/

/-- What a held type `HeldType` offers: its constructor from a raw pointer `T*` and the
function `get_pointer` found for it. Pointers are addresses. -/
structure held_type_ops (Obj : Type) where
  construct : Nat → Obj
  get_pointer : Obj → Nat

/-- Storage for held objects: what object, if any, lives at an address. -/
abbrev storage (Obj : Type) := Nat → Option Obj

/-- The function `internal_construct_held_type<HeldType, T>::apply(target, raw_pointer)`: a
`HeldType` is constructed at `target` from the raw pointer (placement new). -/
def internal_construct_held_type.apply {Obj : Type} (H : held_type_ops Obj)
    (mem : storage Obj) (target raw_pointer : Nat) : storage Obj :=
  fun a => if a = target then some (H.construct raw_pointer) else mem a

/-- The function `extract_underlying_type<UnderlyingT, HeldT>::extract(ptr)`: the held
object at `ptr` is read and `get_pointer` of it is returned; `none` when no held object
lives at `ptr`. -/
def extract_underlying_type.extract {Obj : Type} (H : held_type_ops Obj) (mem : storage Obj)
    (ptr : Nat) : Option Nat :=
  match mem ptr with
  | some held_obj => some (H.get_pointer held_obj)
  | none => none

/-- Sample held type: a pointer wrapper with a use count, constructed with count 1. -/
def sample_holder : held_type_ops (Nat × Nat) :=
  { construct := fun p => (p, 1), get_pointer := fun h => h.1 }

/-! ## Overload matching -/

/-- Modelled from the spec: the outcome of matching a call against an overload set (the
overload matcher is not among the sources): one selected overload, the "no matching
overload" failure, or the "ambiguous call" failure with the tied candidates. -/
inductive match_result where
  | success (o : overload_rep)
  | no_match
  | ambiguous (tied : List overload_rep)
deriving DecidableEq

/-- Modelled from the spec: the overloads of a set that take part in a call. The set keeps
every registered overload and "last-registered with an indistinguishable signature
silently shadows earlier ones at call time": an overload is left out when a later overload
of the set has the same parameter types. -/
def unshadowed : List overload_rep → List overload_rep
  | [] => []
  | o :: rest =>
    if rest.any (fun p => decide (p.params = o.params)) then unshadowed rest
    else o :: unshadowed rest

/-- Modelled from the spec: the candidates of a call with their total cost. `score` is the
signature matcher of steps 1 and 2 of the matching algorithm: for a parameter list and the
dynamic arguments it gives the total cost, or `none` on an arity or parameter mismatch. -/
def candidates {Args : Type} (score : List LUABIND_TYPE_INFO → Args → Option Nat)
    (overloads : List overload_rep) (args : Args) : List (Nat × overload_rep) :=
  (unshadowed overloads).filterMap (fun o => (score o.params args).map (fun c => (c, o)))

/-- Modelled from the spec: step 3 of the matching algorithm. "Select the overload(s) with
minimum total cost. Exactly one minimal-cost overload ⇒ success. Zero candidates ⇒ no
matching overload failure. Multiple tied minimal-cost candidates ⇒ ambiguous call
failure." -/
def find_best_match {Args : Type} (score : List LUABIND_TYPE_INFO → Args → Option Nat)
    (overloads : List overload_rep) (args : Args) : match_result :=
  match (candidates score overloads args).filter
      (fun x => (candidates score overloads args).all (fun y => decide (x.1 ≤ y.1))) with
  | [] => match_result.no_match
  | [w] => match_result.success w.2
  | ws => match_result.ambiguous (ws.map Prod.snd)

/-- Sample signature matcher: the arguments are a list of identities, a parameter list
matches exactly the same list, with cost 0. -/
def sample_score (params : List LUABIND_TYPE_INFO) (args : List LUABIND_TYPE_INFO) :
    Option Nat :=
  if params = args then some 0 else none

/-- Sample overload of a function with identity `k` taking one parameter of identity 3. -/
def sample_overload (k : Nat) : overload_rep :=
  { f := { id := k, params := [LUABIND_TYPE_INFO.id 3] }
    policies := none
    match_fun := ([LUABIND_TYPE_INFO.id 3], none)
    call_fun := function_callback.function_callback_null_type sample_C.T none
      { id := k, params := [LUABIND_TYPE_INFO.id 3] }
    sig_fun := [LUABIND_TYPE_INFO.id 3] }

/-- Modelled from the spec: the thunk a call executes. "On success, the thunk of the winning
overload executes"; on either failure no thunk is executed. -/
def executed_thunk : match_result → Option function_callback
  | match_result.success o => some o.call_fun
  | match_result.no_match => none
  | match_result.ambiguous _ => none

/-! ## Sequences of method and constructor registrations -/

/-- A sequence of `add_method` calls, applied left to right. -/
def add_methods {n : Nat} (b : class_base n) (calls : List (String × overload_rep)) :
    class_base n :=
  calls.foldl (fun c r => c.add_method r.1 r.2) b

/-- A sequence of `add_constructor` calls, applied left to right. -/
def add_constructors {n : Nat} (b : class_base n) (os : List overload_t) : class_base n :=
  os.foldl (fun c o => c.add_constructor o) b

/-! ## Casting along base edges -/

/-- Sample instance `class_<Base0>`: a class with identity 10 and no bases. -/
def sample_base : class_args :=
  { T := cpp_type.mk 10 8 8 (by decide)
    WrappedType := none
    HeldType := none
    const_holder := get_const_holder
    Base := [] }

/-- Sample instance `class_<Mid0, bases<Base0>>`: identity 11, base `Base0` at offset 4. -/
def sample_mid : class_args :=
  { T := cpp_type.mk 11 16 8 (by decide)
    WrappedType := none
    HeldType := none
    const_holder := get_const_holder
    Base := [some (sample_base.T, 4)] }

/-- Sample instance `class_<Derived0, bases<Mid0, Base0>>`: identity 12, base `Mid0` at
offset 0 and base `Base0` at offset 8. -/
def sample_derived : class_args :=
  { T := cpp_type.mk 12 32 8 (by decide)
    WrappedType := none
    HeldType := none
    const_holder := get_const_holder
    Base := [some (sample_mid.T, 0), none, some (sample_base.T, 8)] }

/-- The state reached from the empty state by publishing `Base0`, `Mid0` and `Derived0`,
in this order: their descriptors are number 0, 1 and 2. -/
def state_derived : lua_State 11 :=
  commit_state (commit_state (commit_state empty_state (class_.ctor sample_base "Base0"))
    (class_.ctor sample_mid "Mid0")) (class_.ctor sample_derived "Derived0")

/-- The constants of `lua.h` and `luaconf.h` that the shims depend on: the pseudo-index
`LUA_REGISTRYINDEX`, the limit `LUAI_MAXCSTACK` on the stack slots of a C function (which
"must be smaller than -LUA_REGISTRYINDEX"), and which numbers are NaN. -/
structure lua_config where
  LUA_REGISTRYINDEX : Int
  LUAI_MAXCSTACK : Nat
  luai_numisnan : Nat → Bool
  registry_lt : LUA_REGISTRYINDEX < -(LUAI_MAXCSTACK : Int)
  registry_ge : -2147483648 ≤ LUA_REGISTRYINDEX

/-- A Lua value. Numbers are kept as their bit pattern, the other payloads are addresses. -/
inductive TValue where
  | nil
  | boolean (b : Bool)
  | lightuserdata (p : Nat)
  | number (bits : Nat)
  | string (s : String)
  | table (t : Nat)
  | closure (f : Nat)
  | userdata (u : Nat)
  | thread (th : Nat)
deriving DecidableEq

/-- The part of a `lua_State` the shims work on: the stack of the running C function
(bottom first, index 1 is the head), the number of slots the function may use
(`ci->top - base`), the contents of the tables by address, and the values behind the
pseudo-indices. -/
structure stack_state where
  stack : List TValue
  ci_top : Nat
  tables : Nat → Option (List (TValue × TValue))
  pseudo : Int → Option TValue

/-- How an API call ends when it does not return: a Lua error is raised, or the call was
outside the API's contract. -/
inductive lua_fault where
  | error (msg : String)
  | api_violation
deriving DecidableEq

/-- Raw read of a table: the value stored under the key, `nil` when there is none. -/
def table_get (k : TValue) (h : List (TValue × TValue)) : TValue :=
  (h.lookup k).getD TValue.nil

/-- Raw write of a table: the entry of the key is replaced, or removed when the value is
`nil`. -/
def table_set (k v : TValue) (h : List (TValue × TValue)) : List (TValue × TValue) :=
  if v = TValue.nil then h.filter (fun e => !decide (e.1 = k))
  else (k, v) :: h.filter (fun e => !decide (e.1 = k))

/-- The API function `lua_gettop`. -/
def lua_gettop (L : stack_state) : Int := wrap_int L.stack.length

/-- The shim `lua_absindex`. -/
def lua_absindex (cfg : lua_config) (L : stack_state) (i : Int) : Int :=
  if i < 0 ∧ i > cfg.LUA_REGISTRYINDEX then wrap_int (i + wrap_int (lua_gettop L + 1))
  else i

/-- The stack position (from 0) that a valid positive or negative-relative index denotes. -/
def stack_index (cfg : lua_config) (L : stack_state) (idx : Int) : Option Nat :=
  if 0 < idx ∧ idx ≤ L.stack.length then some (idx - 1).toNat
  else if idx < 0 ∧ cfg.LUA_REGISTRYINDEX < idx ∧ -idx ≤ L.stack.length then
    some (L.stack.length + idx).toNat
  else none

/-- The value a valid index denotes (`index2adr` of `lapi.c`): a stack slot, or for a
pseudo-index the registry, the environment, the globals or an upvalue. -/
def index2adr (cfg : lua_config) (L : stack_state) (idx : Int) : Option TValue :=
  if idx ≤ cfg.LUA_REGISTRYINDEX then L.pseudo idx
  else
    match stack_index cfg L idx with
    | some pos => L.stack[pos]?
    | none => none

/-- The auxiliary function `luaL_checkstack`: the stack is grown so that `sz` more slots
can be used; when that would exceed `LUAI_MAXCSTACK` an error with the given message is
raised. -/
def luaL_checkstack (cfg : lua_config) (L : stack_state) (sz : Nat) (msg : String) :
    Except lua_fault stack_state :=
  if sz > cfg.LUAI_MAXCSTACK ∨ L.stack.length + sz > cfg.LUAI_MAXCSTACK then
    Except.error (lua_fault.error ("stack overflow (" ++ msg ++ ")"))
  else Except.ok { L with ci_top := max L.ci_top (L.stack.length + sz) }

/-- The API function `lua_pushlightuserdata`; pushing needs a free slot. -/
def lua_pushlightuserdata (L : stack_state) (p : Nat) : Except lua_fault stack_state :=
  if L.stack.length < L.ci_top then
    Except.ok { L with stack := L.stack ++ [TValue.lightuserdata p] }
  else Except.error lua_fault.api_violation

/-- The API function `lua_insert`: the top element is moved into the given valid stack
index, the elements above that index shift up. -/
def lua_insert (cfg : lua_config) (L : stack_state) (idx : Int) :
    Except lua_fault stack_state :=
  match stack_index cfg L idx, L.stack.getLast? with
  | some pos, some x =>
      Except.ok { L with stack := L.stack.take pos ++ [x] ++ L.stack.dropLast.drop pos }
  | _, _ => Except.error lua_fault.api_violation

/-- The API function `lua_rawset`: `t[k] = v` without metamethods, where `t` is the table
at the index, `v` the top of the stack and `k` the value below it; both are popped. A
`nil` or NaN key raises an error. -/
def lua_rawset (cfg : lua_config) (L : stack_state) (idx : Int) :
    Except lua_fault stack_state :=
  match index2adr cfg L idx, L.stack.reverse with
  | some (TValue.table t), v :: k :: _ =>
      match L.tables t with
      | some h =>
          if k = TValue.nil then Except.error (lua_fault.error "table index is nil")
          else if (match k with
              | TValue.number bits => cfg.luai_numisnan bits
              | _ => false) then Except.error (lua_fault.error "table index is NaN")
          else
            Except.ok { L with
              tables := fun u => if u = t then some (table_set k v h) else L.tables u
              stack := L.stack.dropLast.dropLast }
      | none => Except.error lua_fault.api_violation
  | _, _ => Except.error lua_fault.api_violation

/-- The API function `lua_rawget`: the key on the top of the stack is replaced by `t[k]`,
read without metamethods, where `t` is the table at the index. -/
def lua_rawget (cfg : lua_config) (L : stack_state) (idx : Int) :
    Except lua_fault stack_state :=
  match index2adr cfg L idx, L.stack.getLast? with
  | some (TValue.table t), some k =>
      match L.tables t with
      | some h => Except.ok { L with stack := L.stack.dropLast ++ [table_get k h] }
      | none => Except.error lua_fault.api_violation
  | _, _ => Except.error lua_fault.api_violation

/-- The shim `lua_rawsetp`. -/
def lua_rawsetp (cfg : lua_config) (L : stack_state) (i : Int) (p : Nat) :
    Except lua_fault stack_state :=
  let abs_i := lua_absindex cfg L i
  match luaL_checkstack cfg L 1 "not enough stack slots" with
  | Except.error e => Except.error e
  | Except.ok L1 =>
    match lua_pushlightuserdata L1 p with
    | Except.error e => Except.error e
    | Except.ok L2 =>
      match lua_insert cfg L2 (-2) with
      | Except.error e => Except.error e
      | Except.ok L3 => lua_rawset cfg L3 abs_i

/-- The shim `lua_rawgetp`. -/
def lua_rawgetp (cfg : lua_config) (L : stack_state) (i : Int) (p : Nat) :
    Except lua_fault stack_state :=
  let abs_i := lua_absindex cfg L i
  match lua_pushlightuserdata L p with
  | Except.error e => Except.error e
  | Except.ok L1 => lua_rawget cfg L1 abs_i

/-- The constants of a stock Lua 5.1: the registry index is -10000 and a C function may
use at most 8000 stack slots; number 0 stands for the one NaN of the sample. -/
def lua51 : lua_config :=
  { LUA_REGISTRYINDEX := -10000
    LUAI_MAXCSTACK := 8000
    luai_numisnan := fun bits => decide (bits = 0)
    registry_lt := by decide
    registry_ge := by decide }

/-- Sample state: the stack holds the table 0 (empty), a string, and the number 7 on top;
the function may use 20 slots; the registry is the table 1. -/
def sample_stack : stack_state :=
  { stack := [TValue.table 0, TValue.string "s", TValue.number 7]
    ci_top := 20
    tables := fun t => if t = 0 ∨ t = 1 then some [] else none
    pseudo := fun i => if i = -10000 then some (TValue.table 1) else none }

/-- Sample state with a full stack: 8000 slots, the table 0 at the bottom and numbers above. -/
def full_stack : stack_state :=
  { stack := TValue.table 0 :: List.replicate 7998 (TValue.number 7) ++ [TValue.number 7]
    ci_top := 8000
    tables := fun t => if t = 0 then some [] else none
    pseudo := fun _ => none }

/-! ## Lemmas on the registry -/

theorem lookup_append_single {α β : Type} [DecidableEq α] (l : List (α × β)) (k t : α) (v : β) :
    (l ++ [(k, v)]).lookup t =
      match l.lookup t with
      | some d => some d
      | none => if t = k then some v else none := by
  induction l with
  | nil =>
      by_cases h : t = k
      · simp [List.lookup, h]
      · have hk : (t == k) = false := by simpa using h
        simp [List.lookup, h, hk]
  | cons a l ih =>
      obtain ⟨a1, a2⟩ := a
      by_cases h : t = a1
      · subst h; simp [List.lookup]
      · have hk : (t == a1) = false := by simpa using h
        simp [List.lookup, hk, ih]

theorem find_class_add_class (r : class_registry) (k t : LUABIND_TYPE_INFO) (c : Nat) :
    (r.add_class k c).find_class t =
      match r.find_class t with
      | some d => some d
      | none => if t = k then some c else none := by
  unfold class_registry.add_class
  cases hk : r.find_class k with
  | some d =>
      simp only
      cases ht : r.find_class t with
      | some e => rfl
      | none =>
          have : t ≠ k := by
            intro h; rw [h, hk] at ht; exact Option.noConfusion ht
          simp [this]
  | none =>
      simp only [class_registry.find_class]
      rw [lookup_append_single]
      cases List.lookup t r.m_classes with
      | some e => rfl
      | none => by_cases h : t = k <;> simp [h]

theorem find_class_add_class_of_bound (r : class_registry) (k t : LUABIND_TYPE_INFO) (c d : Nat)
    (h : r.find_class t = some d) : (r.add_class k c).find_class t = some d := by
  rw [find_class_add_class, h]

theorem find_class_add_class_of_ne (r : class_registry) (k t : LUABIND_TYPE_INFO) (c : Nat)
    (h : t ≠ k) : (r.add_class k c).find_class t = r.find_class t := by
  rw [find_class_add_class]
  cases r.find_class t <;> simp [h]

theorem find_class_add_class_self (r : class_registry) (k : LUABIND_TYPE_INFO) (c : Nat) :
    (r.add_class k c).find_class k = some ((r.find_class k).getD c) := by
  rw [find_class_add_class]
  cases r.find_class k <;> simp

theorem add_class_of_bound (r : class_registry) (k : LUABIND_TYPE_INFO) (c d : Nat)
    (h : r.find_class k = some d) : r.add_class k c = r := by
  simp [class_registry.add_class, h]

namespace class_base

variable {n : Nat}

theorem commit_held_type_of_bound (b : class_base n) (r : class_registry) (c d : Nat)
    (t : LUABIND_TYPE_INFO) (h : r.find_class t = some d) :
    (b.commit_held_type r c).find_class t = some d := by
  unfold commit_held_type
  split
  · split
    · exact find_class_add_class_of_bound _ _ _ _ _
        (find_class_add_class_of_bound _ _ _ _ _ h)
    · exact h
  · exact h

theorem commit_held_type_of_held_bound (b : class_base n) (r : class_registry) (c d : Nat)
    (h : r.find_class b.m_held_type = some d) : b.commit_held_type r c = r := by
  unfold commit_held_type
  split
  · simp [h]
  · rfl

theorem commit_held_type_of_invalid (b : class_base n) (r : class_registry) (c : Nat)
    (h : b.m_held_type = LUABIND_INVALID_TYPE_INFO) : b.commit_held_type r c = r := by
  simp [commit_held_type, h, LUABIND_TYPE_INFO_EQUAL]

theorem commit_held_type_of_unbound (b : class_base n) (r : class_registry) (c : Nat)
    (hv : b.m_held_type ≠ LUABIND_INVALID_TYPE_INFO) (h : r.find_class b.m_held_type = none) :
    b.commit_held_type r c =
      (r.add_class b.m_held_type c).add_class b.m_const_holder_type c := by
  simp [commit_held_type, hv, h, LUABIND_TYPE_INFO_EQUAL]

theorem commit_registry (L : lua_State n) (b : class_base n) (hc : b.m_cloned = false) :
    ∃ L' b', b.commit L = some (L', b') ∧
      L'.registry =
        b.commit_held_type (L.registry.add_class b.m_type L.userdata.length) L.userdata.length ∧
      L'.userdata.length = L.userdata.length + 1 := by
  simp [commit, hc, class_rep.ctor]

theorem commit_preserves_bound (L L' : lua_State n) (b b' : class_base n)
    (t : LUABIND_TYPE_INFO) (d : Nat) (h : L.registry.find_class t = some d)
    (hL : b.commit L = some (L', b')) : L'.registry.find_class t = some d := by
  have hc : b.m_cloned = false := by
    cases hb : b.m_cloned with
    | false => rfl
    | true => simp [commit, hb] at hL
  obtain ⟨L1, b1, h1, hr, _⟩ := commit_registry L b hc
  rw [hL] at h1
  cases h1
  rw [hr]
  exact commit_held_type_of_bound _ _ _ _ _ (find_class_add_class_of_bound _ _ _ _ _ h)

end class_base

theorem commit_all_preserves_bound {n : Nat} (bs : List (class_base n)) :
    ∀ (L L' : lua_State n) (t : LUABIND_TYPE_INFO) (d : Nat),
      L.registry.find_class t = some d → commit_all L bs = some L' →
      L'.registry.find_class t = some d := by
  induction bs with
  | nil =>
      intro L L' t d h hL
      simp [commit_all] at hL
      rw [← hL]; exact h
  | cons b bs ih =>
      intro L L' t d h hL
      unfold commit_all at hL
      cases hb : b.commit L with
      | none => simp [hb] at hL
      | some r =>
          simp only [hb] at hL
          exact ih r.1 L' t d (class_base.commit_preserves_bound L r.1 b r.2 t d h hb) hL

theorem commit_all_ok {n : Nat} (bs : List (class_base n)) :
    ∀ (L : lua_State n), (∀ b ∈ bs, b.m_cloned = false) → ∃ L', commit_all L bs = some L' := by
  induction bs with
  | nil => intro L _; exact ⟨L, rfl⟩
  | cons b bs ih =>
      intro L h
      obtain ⟨L1, b1, h1, _⟩ := class_base.commit_registry L b (h b (List.mem_cons_self _ _))
      obtain ⟨L2, h2⟩ := ih L1 (fun x hx => h x (List.mem_cons_of_mem _ hx))
      exact ⟨L2, by simp [commit_all, h1, h2]⟩

/-! ## Publication and the registry -/

/-- C1, the claim as stated fails: in `state_H` the held type of `sample_alias` is valid and
already bound (to descriptor 0), its const-holder identity is not bound, and after `commit`
the const-holder identity is bound (to the new descriptor 1): the registration of the raw
type identity, which here is the same identity, has added a binding for it. -/
theorem commit_binds_aliased_const_holder :
    sample_alias.m_held_type ≠ LUABIND_INVALID_TYPE_INFO ∧
    state_H.registry.find_class sample_alias.m_held_type = some 0 ∧
    state_H.registry.find_class sample_alias.m_const_holder_type = none ∧
    (sample_alias.commit state_H).isSome = true ∧
    (commit_state state_H sample_alias).registry.find_class
      sample_alias.m_const_holder_type = some 1 := by
  decide

/-- C1 (amended): for every registry state and every builder whose held-type identity is
valid, `commit` succeeds on an uncloned builder and, when the held-type identity is already
bound, the held-type step registers nothing: the registry after `commit` is the registry
before with at most the binding of the raw type identity added, so the held-type identity
keeps its descriptor and every identity other than the raw type identity (the const-holder
identity unless it is the raw type identity itself) resolves as before. When the held-type
identity was not bound it is bound to the new descriptor. In both cases every later
sequence of commits leaves the held-type identity bound to that same descriptor. -/
theorem commit_held_type_registered_once {n : Nat} (L : lua_State n) (b : class_base n)
    (hv : b.m_held_type ≠ LUABIND_INVALID_TYPE_INFO) (hc : b.m_cloned = false) :
    ∃ L' b', b.commit L = some (L', b') ∧
      (∀ d, L.registry.find_class b.m_held_type = some d →
        L'.registry = L.registry.add_class b.m_type L.userdata.length ∧
        L'.registry.find_class b.m_held_type = some d ∧
        (∀ t, t ≠ b.m_type → L'.registry.find_class t = L.registry.find_class t)) ∧
      (L.registry.find_class b.m_held_type = none →
        L'.registry.find_class b.m_held_type = some L.userdata.length) ∧
      (∀ bs : List (class_base n), (∀ x ∈ bs, x.m_cloned = false) →
        ∃ L'', commit_all L' bs = some L'' ∧ (L''.registry.find_class b.m_held_type).isSome ∧
          L''.registry.find_class b.m_held_type = L'.registry.find_class b.m_held_type) := by
  obtain ⟨L', b', h, hr, _⟩ := class_base.commit_registry L b hc
  have hbound : ∀ d, L.registry.find_class b.m_held_type = some d →
      L'.registry = L.registry.add_class b.m_type L.userdata.length ∧
      L'.registry.find_class b.m_held_type = some d := by
    intro d hd
    have h1 := find_class_add_class_of_bound L.registry b.m_type b.m_held_type
      L.userdata.length d hd
    rw [class_base.commit_held_type_of_held_bound b _ _ d h1] at hr
    exact ⟨hr, by rw [hr]; exact h1⟩
  have hunbound : L.registry.find_class b.m_held_type = none →
      L'.registry.find_class b.m_held_type = some L.userdata.length := by
    intro hn
    rw [hr]
    by_cases he : b.m_held_type = b.m_type
    · apply class_base.commit_held_type_of_bound
      rw [← he, find_class_add_class_self, hn]; rfl
    · have h1 : (L.registry.add_class b.m_type L.userdata.length).find_class b.m_held_type
          = none := by
        rw [find_class_add_class_of_ne _ _ _ _ he]; exact hn
      rw [class_base.commit_held_type_of_unbound b _ _ hv h1]
      apply find_class_add_class_of_bound
      rw [find_class_add_class_self, h1]; rfl
  refine ⟨L', b', h, ?_, hunbound, ?_⟩
  · intro d hd
    obtain ⟨h1, h2⟩ := hbound d hd
    refine ⟨h1, h2, ?_⟩
    intro t ht
    rw [h1]; exact find_class_add_class_of_ne _ _ _ _ ht
  · intro bs hbs
    obtain ⟨L'', h2⟩ := commit_all_ok bs L' hbs
    have hsome : ∃ d, L'.registry.find_class b.m_held_type = some d := by
      cases hd : L.registry.find_class b.m_held_type with
      | some d => exact ⟨d, (hbound d hd).2⟩
      | none => exact ⟨_, hunbound hd⟩
    obtain ⟨d, hd⟩ := hsome
    have h3 := commit_all_preserves_bound bs L' L'' b.m_held_type d hd h2
    exact ⟨L'', h2, by rw [h3]; rfl, by rw [h3, hd]⟩

/-- C1, the amended statement at a concrete input: `sample_alias`, whose held type is
already bound in `state_H`. -/
theorem commit_held_type_registered_once_witness :
    ∃ L' b', sample_alias.commit state_H = some (L', b') ∧
      (∀ d, state_H.registry.find_class sample_alias.m_held_type = some d →
        L'.registry = state_H.registry.add_class sample_alias.m_type state_H.userdata.length ∧
        L'.registry.find_class sample_alias.m_held_type = some d ∧
        (∀ t, t ≠ sample_alias.m_type →
          L'.registry.find_class t = state_H.registry.find_class t)) ∧
      (state_H.registry.find_class sample_alias.m_held_type = none →
        L'.registry.find_class sample_alias.m_held_type = some state_H.userdata.length) ∧
      (∀ bs : List (class_base 11), (∀ x ∈ bs, x.m_cloned = false) →
        ∃ L'', commit_all L' bs = some L'' ∧
          (L''.registry.find_class sample_alias.m_held_type).isSome ∧
          L''.registry.find_class sample_alias.m_held_type =
            L'.registry.find_class sample_alias.m_held_type) :=
  commit_held_type_registered_once state_H sample_alias (by decide) (by decide)

/-- C2: registry bindings are never re-bound. For every registry state in which an identity
`t` (the raw type identity, the held-type identity, the const-holder identity, the invalid
identity or any other) is bound to descriptor `d`, and every uncloned builder, `commit`
succeeds and `t` is still bound to `d` afterwards. -/
theorem commit_never_rebinds {n : Nat} (L : lua_State n) (b : class_base n)
    (t : LUABIND_TYPE_INFO) (d : Nat) (hb : L.registry.find_class t = some d)
    (hc : b.m_cloned = false) :
    ∃ L' b', b.commit L = some (L', b') ∧ L'.registry.find_class t = some d := by
  obtain ⟨L', b', h, _⟩ := class_base.commit_registry L b hc
  exact ⟨L', b', h, class_base.commit_preserves_bound L L' b b' t d hb h⟩

/-- C2 at a concrete input: in `state_A` the invalid identity is bound to descriptor 0 (it
was registered as the const holder of `sample_A`); publishing `class_<B, HB>("B")`, whose
const holder is the invalid identity too, leaves it bound to descriptor 0. -/
theorem commit_never_rebinds_witness :
    ∃ L' b', (class_.ctor sample_B "B" : class_base 11).commit state_A = some (L', b') ∧
      L'.registry.find_class LUABIND_INVALID_TYPE_INFO = some 0 :=
  commit_never_rebinds state_A (class_.ctor sample_B "B") LUABIND_INVALID_TYPE_INFO 0
    (by decide) (by decide)

/-- C3, the claim as stated fails: in `state_A` the builder `class_<B, HB>("B")` has a valid
held-type identity that is not bound; after `commit` the raw type identity and the held-type
identity resolve to the new descriptor 1, but the const-holder identity (the invalid
identity, bound when `class_<A, HA>` was published) still resolves to descriptor 0. -/
theorem commit_const_holder_keeps_first_descriptor :
    (class_.ctor sample_B "B" : class_base 11).m_held_type ≠ LUABIND_INVALID_TYPE_INFO ∧
    state_A.registry.find_class (class_.ctor sample_B "B" : class_base 11).m_held_type = none ∧
    ((class_.ctor sample_B "B" : class_base 11).commit state_A).isSome = true ∧
    state_A.userdata.length = 1 ∧
    (commit_state state_A (class_.ctor sample_B "B")).registry.find_class
      (class_.ctor sample_B "B" : class_base 11).m_type = some 1 ∧
    (commit_state state_A (class_.ctor sample_B "B")).registry.find_class
      (class_.ctor sample_B "B" : class_base 11).m_held_type = some 1 ∧
    (commit_state state_A (class_.ctor sample_B "B")).registry.find_class
      (class_.ctor sample_B "B" : class_base 11).m_const_holder_type = some 0 := by
  decide

/-- C3 (amended): for every uncloned builder `commit` succeeds and creates one new
descriptor. If the held-type identity is valid, not yet bound and different from the raw
type identity, then after `commit` the held-type identity resolves to the new descriptor,
and the raw type identity and the const-holder identity resolve to the new descriptor
unless they were bound before, in which case they keep their earlier descriptor (so all
three resolve to the new descriptor when none was bound). If the builder has no held type,
`commit` binds only the raw type identity: every other identity resolves as before. -/
theorem commit_aliases_new_descriptor {n : Nat} (L : lua_State n) (b : class_base n)
    (hc : b.m_cloned = false) :
    ∃ L' b', b.commit L = some (L', b') ∧
      L'.userdata.length = L.userdata.length + 1 ∧
      (b.m_held_type ≠ LUABIND_INVALID_TYPE_INFO →
        L.registry.find_class b.m_held_type = none → b.m_held_type ≠ b.m_type →
        L'.registry.find_class b.m_held_type = some L.userdata.length ∧
        L'.registry.find_class b.m_type =
          some ((L.registry.find_class b.m_type).getD L.userdata.length) ∧
        L'.registry.find_class b.m_const_holder_type =
          some ((L.registry.find_class b.m_const_holder_type).getD L.userdata.length)) ∧
      (b.m_held_type = LUABIND_INVALID_TYPE_INFO →
        L'.registry.find_class b.m_type =
          some ((L.registry.find_class b.m_type).getD L.userdata.length) ∧
        ∀ t, t ≠ b.m_type → L'.registry.find_class t = L.registry.find_class t) := by
  obtain ⟨L', b', h, hr, hlen⟩ := class_base.commit_registry L b hc
  refine ⟨L', b', h, hlen, ?_, ?_⟩
  · intro hv hu hne
    have h1 : (L.registry.add_class b.m_type L.userdata.length).find_class b.m_held_type
        = none := by
      rw [find_class_add_class_of_ne _ _ _ _ hne]; exact hu
    rw [class_base.commit_held_type_of_unbound b _ _ hv h1] at hr
    have hheld : ((L.registry.add_class b.m_type L.userdata.length).add_class b.m_held_type
        L.userdata.length).find_class b.m_held_type = some L.userdata.length := by
      rw [find_class_add_class_self, h1]; rfl
    refine ⟨?_, ?_, ?_⟩
    · rw [hr]; exact find_class_add_class_of_bound _ _ _ _ _ hheld
    · rw [hr]
      exact find_class_add_class_of_bound _ _ _ _ _
        (find_class_add_class_of_bound _ _ _ _ _ (find_class_add_class_self _ _ _))
    · rw [hr, find_class_add_class_self]
      by_cases e1 : b.m_const_holder_type = b.m_held_type
      · rw [e1, hheld, hu]; rfl
      · rw [find_class_add_class_of_ne _ _ _ _ e1]
        by_cases e2 : b.m_const_holder_type = b.m_type
        · rw [e2, find_class_add_class_self]
          cases L.registry.find_class b.m_type <;> rfl
        · rw [find_class_add_class_of_ne _ _ _ _ e2]
  · intro hi
    rw [class_base.commit_held_type_of_invalid b _ _ hi] at hr
    refine ⟨by rw [hr]; exact find_class_add_class_self _ _ _, ?_⟩
    intro t ht
    rw [hr]; exact find_class_add_class_of_ne _ _ _ _ ht

/-- C3, the amended statement at a concrete input: publishing `class_<B, HB>("B")` in
`state_A`. -/
theorem commit_aliases_new_descriptor_witness :
    ∃ L' b', (class_.ctor sample_B "B" : class_base 11).commit state_A = some (L', b') ∧
      L'.registry.find_class (LUABIND_TYPE_INFO.id 4) = some 1 ∧
      L'.registry.find_class (LUABIND_TYPE_INFO.id 3) = some 1 ∧
      L'.registry.find_class LUABIND_INVALID_TYPE_INFO = some 0 := by
  obtain ⟨L', b', h, _, h1, _⟩ :=
    commit_aliases_new_descriptor state_A (class_.ctor sample_B "B") (by decide)
  obtain ⟨ha, hb, hc⟩ := h1 (by decide) (by decide) (by decide)
  exact ⟨L', b', h, ha, hb, hc⟩

/-! ## Representation modes are fixed by `init` -/

namespace class_

variable {n : Nat}

theorem generate_baseclass_list_fixed (Base : List (Option (cpp_type × Int))) :
    ∀ b : class_base n, (generate_baseclass_list b Base).representation = b.representation ∧
      (generate_baseclass_list b Base).m_cloned = b.m_cloned := by
  induction Base with
  | nil => intro b; exact ⟨rfl, rfl⟩
  | cons To Base ih =>
      intro b
      have h := ih (gen_base_info b To)
      have h2 : (gen_base_info b To).representation = b.representation ∧
          (gen_base_info b To).m_cloned = b.m_cloned := by
        cases To with
        | none => exact ⟨rfl, rfl⟩
        | some p => exact ⟨rfl, rfl⟩
      simp only [generate_baseclass_list, List.foldl_cons] at h ⊢
      exact ⟨h.1.trans h2.1, h.2.trans h2.2⟩

theorem ctor_representation (A : class_args) (name : String) :
    (ctor A name : class_base n).representation =
      { held_type := internal_held_type.apply A.HeldType
        held_type_size := internal_held_type_size.apply A.HeldType
        held_type_alignment := get_holder_alignment.apply A.HeldType
        extractor := internal_held_type_extractor.apply A.HeldType A.T
        construct_held_type := internal_held_type_constructor.apply A.HeldType A.T
        destructor := internal_held_type_destructor.apply A.HeldType A.T } ∧
    (ctor A name : class_base n).m_cloned = false := by
  unfold ctor init
  refine ⟨(generate_baseclass_list_fixed A.Base _).1.trans rfl,
    (generate_baseclass_list_fixed A.Base _).2.trans rfl⟩

theorem apply_fixed (A : class_args) (ids : operator_ids n) (b : class_base n) (o : op n) :
    (apply A ids b o).representation = b.representation ∧
      (apply A ids b o).m_cloned = b.m_cloned := by
  cases o with
  | property_maybe_setter name g s => cases s <;> exact ⟨rfl, rfl⟩
  | _ => exact ⟨rfl, rfl⟩

theorem apply_all_fixed (A : class_args) (ids : operator_ids n) (ops : List (op n)) :
    ∀ b : class_base n, (apply_all A ids b ops).representation = b.representation ∧
      (apply_all A ids b ops).m_cloned = b.m_cloned := by
  induction ops with
  | nil => intro b; exact ⟨rfl, rfl⟩
  | cons o ops ih =>
      intro b
      have h := ih (apply A ids b o)
      have h2 := apply_fixed A ids b o
      simp only [apply_all, List.foldl_cons] at h ⊢
      exact ⟨h.1.trans h2.1, h.2.trans h2.2⟩

end class_

/-! ## What `commit` builds -/

namespace class_base

variable {n : Nat}

theorem commit_bases_eq (r : class_registry) (bases : List base_desc) :
    ∀ c : class_rep n, commit_bases r bases c =
      { c with m_bases := c.m_bases ++
          bases.map (fun i => { pointer_offset := i.ptr_offset, base := r.find_class i.type }) } := by
  induction bases with
  | nil => intro c; simp [commit_bases]
  | cons i bases ih =>
      intro c
      have h := ih (c.add_base_class
        { pointer_offset := i.ptr_offset, base := r.find_class i.type })
      simp only [commit_bases, List.foldl_cons] at h ⊢
      rw [h]
      simp [class_rep.add_base_class]

theorem commit_descriptor (L : lua_State n) (b : class_base n) (hc : b.m_cloned = false) :
    ∃ L' b' rep, b.commit L = some (L', b') ∧ L'.userdata = L.userdata ++ [rep] ∧
      rep.representation = b.representation ∧
      rep.m_methods = b.m_methods.map
        (fun i => (i.1, { i.2 with crep := some L.userdata.length })) ∧
      rep.m_getters = b.m_getters ∧ rep.m_setters = b.m_setters ∧
      rep.m_operators = b.m_operators ∧ rep.m_static_constants = b.m_static_constants ∧
      rep.m_constructor = b.m_constructor ∧
      b'.m_methods = [] ∧ b'.m_getters = [] ∧ b'.m_setters = [] ∧
      (∀ i, b'.m_operators i = []) ∧ b'.m_static_constants = [] ∧
      b'.m_constructor.overloads = [] ∧ b'.m_cloned = false := by
  simp only [commit, hc, class_rep.ctor, commit_bases_eq, List.isEmpty_nil, Bool.not_true,
    Bool.false_eq_true, if_false]
  refine ⟨_, _, _, rfl, rfl, ?_⟩
  simp [class_rep.representation, class_base.representation]

end class_base

/-- C4, the claim as stated fails: for `class_<G, HG>` with `sizeof(HG) = 2 ^ 31 + 8` the
builder after `init()` has the valid held-type identity of `HG`, a non-null extractor and a
non-null held-type constructor, but its held-type size, `sizeof(HG)` returned as `int`, is
`-2147483640`: the builder is neither in held mode nor in raw mode. -/
theorem held_type_size_wraps_negative :
    (class_.ctor sample_huge "G" : class_base 11).representation.held_type =
      LUABIND_TYPE_INFO.id 21 ∧
    (class_.ctor sample_huge "G" : class_base 11).representation.held_type_size =
      -2147483640 ∧
    (class_.ctor sample_huge "G" : class_base 11).representation.extractor ≠
      extractor_fun.null ∧
    (class_.ctor sample_huge "G" : class_base 11).representation.construct_held_type ≠
      held_constructor.null ∧
    ¬ ((∃ H, sample_huge.HeldType = some H ∧
          held_mode H (class_.ctor sample_huge "G" : class_base 11).representation) ∨
        (sample_huge.HeldType = none ∧
          raw_mode sample_huge.T (class_.ctor sample_huge "G" : class_base 11).representation)) := by
  have hs : (class_.ctor sample_huge "G" : class_base 11).representation.held_type_size =
      -2147483640 := by decide
  refine ⟨by decide, hs, by decide, by decide, ?_⟩
  rintro (⟨H, _, hm⟩ | ⟨hn, _⟩)
  · have hpos := hm.2.2.1
    rw [hs] at hpos
    exact absurd hpos (by decide)
  · exact absurd hn (by decide)

/-- C4 (amended): representation-mode consistency for held types whose size an `int` holds.
For every instance of `class_<T, ...>`, on the builder after `init()` and any sequence of
registration calls: if the instance has a held type, the held-type identity is the valid
identity of the held type, extractor and held-type constructor are not null, the destructor
is the destruct-only function of the held type, and the held-type size is `sizeof` of the
held type narrowed to `int`; so when that `sizeof` is below `2 ^ 31` the builder is in held
mode (size positive), and an instance with no held type is in raw mode (invalid held-type
identity, size and alignment 0, extractor and held-type constructor null, destructor the
plain delete of `T`). For every instance, `clone()` succeeds and returns a builder with the
same values, and `commit`, on the builder or on its clone, succeeds and hands exactly these
values to the new descriptor. -/
theorem representation_mode_consistent {n : Nat} (A : class_args) (ids : operator_ids n)
    (name : String) (ops : List (class_.op n)) :
    ((∀ H, A.HeldType = some H → H.size < 2 ^ 31) →
      ((∃ H, A.HeldType = some H ∧
          held_mode H (class_.apply_all A ids (class_.ctor A name) ops).representation) ∨
        (A.HeldType = none ∧
          raw_mode A.T (class_.apply_all A ids (class_.ctor A name) ops).representation))) ∧
    (∀ H, A.HeldType = some H →
      (class_.apply_all A ids (class_.ctor A name) ops).representation.held_type =
        LUABIND_TYPEID H ∧
      (class_.apply_all A ids (class_.ctor A name) ops).representation.held_type ≠
        LUABIND_INVALID_TYPE_INFO ∧
      (class_.apply_all A ids (class_.ctor A name) ops).representation.held_type_size =
        wrap_int (H.size : Int) ∧
      (class_.apply_all A ids (class_.ctor A name) ops).representation.extractor ≠
        extractor_fun.null ∧
      (class_.apply_all A ids (class_.ctor A name) ops).representation.construct_held_type ≠
        held_constructor.null ∧
      (class_.apply_all A ids (class_.ctor A name) ops).representation.destructor =
        destructor_t.destruct_only_s H) ∧
    (∃ b' ret, (class_.apply_all A ids (class_.ctor A name) ops).clone = some (b', ret) ∧
      ret.representation = (class_.apply_all A ids (class_.ctor A name) ops).representation ∧
      ∀ L : lua_State n, ∃ L' ret' rep, ret.commit L = some (L', ret') ∧
        L'.userdata = L.userdata ++ [rep] ∧
        rep.representation =
          (class_.apply_all A ids (class_.ctor A name) ops).representation) ∧
    (∀ L : lua_State n, ∃ L' b' rep,
      (class_.apply_all A ids (class_.ctor A name) ops).commit L = some (L', b') ∧
      L'.userdata = L.userdata ++ [rep] ∧
      rep.representation = (class_.apply_all A ids (class_.ctor A name) ops).representation) := by
  obtain ⟨hrep, hcl⟩ := class_.apply_all_fixed A ids ops (class_.ctor A name)
  obtain ⟨hrep0, hcl0⟩ := class_.ctor_representation (n := n) A name
  rw [hcl0] at hcl
  rw [hrep0] at hrep
  have hheld : ∀ H, A.HeldType = some H →
      (class_.apply_all A ids (class_.ctor A name) ops).representation.held_type =
        LUABIND_TYPEID H ∧
      (class_.apply_all A ids (class_.ctor A name) ops).representation.held_type ≠
        LUABIND_INVALID_TYPE_INFO ∧
      (class_.apply_all A ids (class_.ctor A name) ops).representation.held_type_size =
        wrap_int (H.size : Int) ∧
      (class_.apply_all A ids (class_.ctor A name) ops).representation.extractor ≠
        extractor_fun.null ∧
      (class_.apply_all A ids (class_.ctor A name) ops).representation.construct_held_type ≠
        held_constructor.null ∧
      (class_.apply_all A ids (class_.ctor A name) ops).representation.destructor =
        destructor_t.destruct_only_s H := by
    intro H hH
    rw [hrep, hH]
    refine ⟨rfl, ?_, rfl, ?_, ?_, rfl⟩
    · simp [internal_held_type.apply, LUABIND_TYPEID]
    · simp [internal_held_type_extractor.apply]
    · simp [internal_held_type_constructor.apply]
  refine ⟨?_, hheld, ?_, ?_⟩
  · intro hfit
    cases hH : A.HeldType with
    | none =>
        right
        rw [hrep, hH]
        exact ⟨rfl, rfl, rfl, rfl, rfl, rfl, rfl⟩
    | some H =>
        left
        obtain ⟨h1, h2, h3, h4, h5, h6⟩ := hheld H hH
        refine ⟨H, rfl, h1, h2, ?_, h4, h5, h6⟩
        rw [h3]
        have hlt := hfit H hH
        have hpos := H.size_pos
        unfold wrap_int
        omega
  · have hclone : ∃ b' ret,
        (class_.apply_all A ids (class_.ctor A name) ops).clone = some (b', ret) ∧
        ret.representation =
          (class_.apply_all A ids (class_.ctor A name) ops).representation ∧
        ret.m_cloned = false := by
      simp only [class_base.clone, hcl, bne_self_eq_false, Bool.false_eq_true, if_false]
      exact ⟨_, _, rfl, rfl, rfl⟩
    obtain ⟨b', ret, h1, h2, h3⟩ := hclone
    refine ⟨b', ret, h1, h2, ?_⟩
    intro L
    obtain ⟨L', ret', rep, h4, h5, h6, _⟩ := class_base.commit_descriptor L ret h3
    exact ⟨L', ret', rep, h4, h5, h6.trans h2⟩
  · intro L
    obtain ⟨L', b', rep, h4, h5, h6, _⟩ := class_base.commit_descriptor L _ hcl
    exact ⟨L', b', rep, h4, h5, h6⟩

/-- C4 at a concrete input: the instance `class_<B, HB>`, whose held type has size 16, with
a method, a property and a read-only member registered is in held mode. -/
theorem representation_mode_consistent_witness :
    (∀ H, sample_B.HeldType = some H → H.size < 2 ^ 31) ∧
    ((∃ H, sample_B.HeldType = some H ∧ held_mode H sample_B_builder.representation) ∨
      (sample_B.HeldType = none ∧ raw_mode sample_B.T sample_B_builder.representation)) :=
  have hfit : ∀ H, sample_B.HeldType = some H → H.size < 2 ^ 31 := fun H h => by
    have hH : H = cpp_type.mk 4 16 8 (by decide) := (Option.some.inj h).symm
    rw [hH]
    decide
  ⟨hfit, (representation_mode_consistent sample_B sample_ids "B"
    [class_.op.def_ "f" { id := 1, params := [LUABIND_TYPE_INFO.id 3] },
     class_.op.property_maybe_setter "p" 2 (maybe_setter.setter 3),
     class_.op.def_readonly "x" 4]).1 hfit⟩

/-! ## Held objects: construct, then extract -/

/-- C5: held-mode round trip. For every held type whose `get_pointer` returns the pointer
the object was constructed from, every storage, every storage address `S` and every raw
pointer `P`: after `internal_construct_held_type<H, T>::apply(S, P)`,
`extract_underlying_type<T, H>::extract(S)` returns `P`. -/
theorem extract_after_construct {Obj : Type} (H : held_type_ops Obj) (mem : storage Obj)
    (S P : Nat) (hget : ∀ p, H.get_pointer (H.construct p) = p) :
    extract_underlying_type.extract H (internal_construct_held_type.apply H mem S P) S
      = some P := by
  simp [extract_underlying_type.extract, internal_construct_held_type.apply, hget]

/-- C5 at a concrete input: the sample holder constructed at address 64 from the raw pointer
4096, in empty storage. -/
theorem extract_after_construct_witness :
    extract_underlying_type.extract sample_holder
      (internal_construct_held_type.apply sample_holder (fun _ => none) 64 4096) 64
      = some 4096 :=
  extract_after_construct sample_holder (fun _ => none) 64 4096 (fun _ => rfl)

/-! ## Operator overloads -/

/-- C6: operator arity is fixed by the operator kind. Both `def(operator_<...>)` overloads
append to the list of the given operator id, and to no other list, one overload whose arity
is 1 when `is_unary` holds of the id and 2 otherwise; both `def(application_operator<...>*)`
overloads append to the list of `op_call`, and to no other list, one overload whose arity
is the number of parameters of the signature plus one. -/
theorem operator_arity_by_kind {n : Nat} (A : class_args) (ids : operator_ids n)
    (b : class_base n) :
    (∀ (op_id : Fin n) (left_t right_t : LUABIND_TYPE_INFO) (policies : policies_t)
        (o : class_.op n),
      (o = class_.op.def_operator op_id left_t right_t ∨
        o = class_.op.def_operator_policies op_id left_t right_t policies) →
      (∃ c : operator_callback,
        (class_.apply A ids b o).m_operators op_id = b.m_operators op_id ++ [c] ∧
        c.arity = (if ids.is_unary op_id then 1 else 2)) ∧
      ∀ i, i ≠ op_id → (class_.apply A ids b o).m_operators i = b.m_operators i) ∧
    (∀ (Signature : List LUABIND_TYPE_INFO) (Constant : Bool) (policies : policies_t)
        (o : class_.op n),
      (o = class_.op.def_application_operator Signature Constant ∨
        o = class_.op.def_application_operator_policies Signature Constant policies) →
      (∃ c : operator_callback,
        (class_.apply A ids b o).m_operators ids.op_call =
          b.m_operators ids.op_call ++ [c] ∧
        c.arity = (Signature.length : Int) + 1) ∧
      ∀ i, i ≠ ids.op_call → (class_.apply A ids b o).m_operators i = b.m_operators i) := by
  refine ⟨?_, ?_⟩
  · intro op_id left_t right_t policies o ho
    rcases ho with rfl | rfl
    · refine ⟨⟨_, by simp [class_.apply, class_.def_operator, class_base.add_operator]; rfl,
        rfl⟩, ?_⟩
      intro i hi
      simp [class_.apply, class_.def_operator, class_base.add_operator, hi]
    · refine ⟨⟨_, by simp [class_.apply, class_.def_operator, class_base.add_operator]; rfl,
        rfl⟩, ?_⟩
      intro i hi
      simp [class_.apply, class_.def_operator, class_base.add_operator, hi]
  · intro Signature Constant policies o ho
    rcases ho with rfl | rfl
    · refine ⟨⟨_, by
          simp [class_.apply, class_.def_application_operator, class_base.add_operator]; rfl,
        rfl⟩, ?_⟩
      intro i hi
      simp [class_.apply, class_.def_application_operator, class_base.add_operator, hi]
    · refine ⟨⟨_, by
          simp [class_.apply, class_.def_application_operator, class_base.add_operator]; rfl,
        rfl⟩, ?_⟩
      intro i hi
      simp [class_.apply, class_.def_application_operator, class_base.add_operator, hi]

/-- C6 at a concrete input: on the fresh builder `class_<C>("C")`, an overload of operator
10 (unary in `sample_ids`) is appended to list 10 with arity 1, and an application
operator with a two parameter signature is appended to the list of `op_call` with arity 3. -/
theorem operator_arity_by_kind_witness :
    (∃ c : operator_callback,
      (class_.apply sample_C sample_ids (class_.ctor sample_C "C")
        (class_.op.def_operator 10 (LUABIND_TYPE_INFO.id 5)
          LUABIND_INVALID_TYPE_INFO)).m_operators 10 =
        (class_.ctor sample_C "C" : class_base 11).m_operators 10 ++ [c] ∧
      c.arity = (if sample_ids.is_unary 10 then 1 else 2)) ∧
    (∃ c : operator_callback,
      (class_.apply sample_C sample_ids (class_.ctor sample_C "C")
        (class_.op.def_application_operator
          [LUABIND_TYPE_INFO.id 3, LUABIND_TYPE_INFO.id 3] false)).m_operators
          sample_ids.op_call =
        (class_.ctor sample_C "C" : class_base 11).m_operators sample_ids.op_call ++ [c] ∧
      c.arity = (([LUABIND_TYPE_INFO.id 3, LUABIND_TYPE_INFO.id 3].length : Nat) : Int) + 1) :=
  ⟨((operator_arity_by_kind sample_C sample_ids (class_.ctor sample_C "C")).1 10
      (LUABIND_TYPE_INFO.id 5) LUABIND_INVALID_TYPE_INFO none _ (Or.inl rfl)).1,
    ((operator_arity_by_kind sample_C sample_ids (class_.ctor sample_C "C")).2
      [LUABIND_TYPE_INFO.id 3, LUABIND_TYPE_INFO.id 3] false none _ (Or.inl rfl)).1⟩

/-! ## Same-signature overloads -/

theorem map_find_map_set_self {V : Type} (k : String) (v : V) (m : List (String × V)) :
    map_find k (map_set k v m) = some v := by
  induction m with
  | nil => simp [map_set, map_find]
  | cons a m ih =>
      obtain ⟨k', v'⟩ := a
      by_cases h : k' = k
      · simp [map_set, map_find, h]
      · simp [map_set, map_find, h, ih]

theorem map_find_map_set_of_ne {V : Type} (k k' : String) (v : V) (m : List (String × V))
    (hne : k' ≠ k) : map_find k' (map_set k v m) = map_find k' m := by
  induction m with
  | nil =>
      have : ¬ k = k' := fun h => hne h.symm
      simp [map_set, map_find, this]
  | cons a m ih =>
      obtain ⟨k1, v1⟩ := a
      by_cases h : k1 = k
      · subst h
        have : ¬ k1 = k' := fun h => hne h.symm
        simp [map_set, map_find, this]
      · by_cases h2 : k1 = k'
        · subst h2; simp [map_set, map_find, h]
        · simp [map_set, map_find, h, h2, ih]

theorem unshadowed_cons (o : overload_rep) (rest : List overload_rep) :
    unshadowed (o :: rest) =
      if rest.any (fun p => decide (p.params = o.params)) then unshadowed rest
      else o :: unshadowed rest := rfl

theorem mem_of_mem_unshadowed (o : overload_rep) :
    ∀ S : List overload_rep, o ∈ unshadowed S → o ∈ S := by
  intro S
  induction S with
  | nil => intro h; simp [unshadowed] at h
  | cons a S ih =>
      intro h
      rw [unshadowed_cons] at h
      split at h
      · exact List.mem_cons_of_mem _ (ih h)
      · rw [List.mem_cons] at h
        rcases h with rfl | h
        · exact List.mem_cons_self _ _
        · exact List.mem_cons_of_mem _ (ih h)

theorem unshadowed_pairwise :
    ∀ S : List overload_rep, (unshadowed S).Pairwise (fun a b => a.params ≠ b.params) := by
  intro S
  induction S with
  | nil => simp [unshadowed]
  | cons a S ih =>
      rw [unshadowed_cons]
      split
      · exact ih
      · rename_i hany
        rw [List.pairwise_cons]
        refine ⟨?_, ih⟩
        intro b hb hab
        apply hany
        rw [List.any_eq_true]
        exact ⟨b, mem_of_mem_unshadowed b S hb, decide_eq_true hab.symm⟩

theorem unshadowed_covers :
    ∀ (S : List overload_rep) (o : overload_rep), o ∈ S →
      ∃ o' ∈ unshadowed S, o'.params = o.params := by
  intro S
  induction S with
  | nil => intro o h; exact absurd h (List.not_mem_nil o)
  | cons a S ih =>
      intro o h
      rw [unshadowed_cons]
      rw [List.mem_cons] at h
      by_cases hany : (S.any fun p => decide (p.params = a.params)) = true
      · rw [if_pos hany]
        rcases h with rfl | h
        · rw [List.any_eq_true] at hany
          obtain ⟨p, hp, hpe⟩ := hany
          obtain ⟨o', ho', hoe⟩ := ih p hp
          exact ⟨o', ho', hoe.trans (of_decide_eq_true hpe)⟩
        · exact ih o h
      · rw [if_neg hany]
        rcases h with rfl | h
        · exact ⟨o, List.mem_cons_self _ _, rfl⟩
        · obtain ⟨o', ho', hoe⟩ := ih o h
          exact ⟨o', List.mem_cons_of_mem _ ho', hoe⟩

theorem mem_unshadowed_iff (o : overload_rep) :
    ∀ S : List overload_rep, o ∈ unshadowed S ↔
      ∃ pre post, S = pre ++ o :: post ∧ ∀ p ∈ post, p.params ≠ o.params := by
  intro S
  induction S with
  | nil => simp [unshadowed]
  | cons a S ih =>
      rw [unshadowed_cons]
      constructor
      · intro h
        have hS : o ∈ unshadowed S → ∃ pre post, a :: S = pre ++ o :: post ∧
            ∀ p ∈ post, p.params ≠ o.params := by
          intro h'
          obtain ⟨pre, post, he, hp⟩ := ih.mp h'
          exact ⟨a :: pre, post, by rw [he]; rfl, hp⟩
        by_cases hany : (S.any fun p => decide (p.params = a.params)) = true
        · rw [if_pos hany] at h
          exact hS h
        · rw [if_neg hany, List.mem_cons] at h
          rcases h with rfl | h
          · refine ⟨[], S, rfl, ?_⟩
            intro p hp hpe
            apply hany
            rw [List.any_eq_true]
            exact ⟨p, hp, decide_eq_true hpe⟩
          · exact hS h
      · rintro ⟨pre, post, he, hp⟩
        cases pre with
        | nil =>
            simp only [List.nil_append, List.cons.injEq] at he
            obtain ⟨rfl, rfl⟩ := he
            have hany : ¬ (S.any fun p => decide (p.params = a.params)) = true := by
              rw [List.any_eq_true]
              rintro ⟨p, hp1, hp2⟩
              exact hp p hp1 (of_decide_eq_true hp2)
            rw [if_neg hany]
            exact List.mem_cons_self _ _
        | cons a' pre =>
            simp only [List.cons_append, List.cons.injEq] at he
            obtain ⟨rfl, rfl⟩ := he
            have h' : o ∈ unshadowed (pre ++ o :: post) := ih.mpr ⟨pre, post, rfl, hp⟩
            split
            · exact h'
            · exact List.mem_cons_of_mem _ h'

theorem mem_candidates_iff {Args : Type} (score : List LUABIND_TYPE_INFO → Args → Option Nat)
    (S : List overload_rep) (args : Args) (x : Nat × overload_rep) :
    x ∈ candidates score S args ↔
      x.2 ∈ unshadowed S ∧ score x.2.params args = some x.1 := by
  unfold candidates
  rw [List.mem_filterMap]
  constructor
  · rintro ⟨o, ho, hx⟩
    cases hs : score o.params args with
    | none => simp [hs] at hx
    | some c =>
        simp only [hs, Option.map_some', Option.some.injEq] at hx
        rw [← hx]
        exact ⟨ho, hs⟩
  · rintro ⟨h1, h2⟩
    exact ⟨x.2, h1, by simp [h2]⟩

theorem candidates_pairwise {Args : Type}
    (score : List LUABIND_TYPE_INFO → Args → Option Nat) (args : Args) :
    ∀ l : List overload_rep, l.Pairwise (fun a b => a.params ≠ b.params) →
      (l.filterMap (fun o => (score o.params args).map (fun c => (c, o)))).Pairwise
        (fun x y => x.2.params ≠ y.2.params) := by
  intro l
  induction l with
  | nil => intro _; simp
  | cons a l ih =>
      intro h
      rw [List.pairwise_cons] at h
      obtain ⟨h1, h2⟩ := h
      cases hs : score a.params args with
      | none =>
          simp only [List.filterMap_cons, hs, Option.map_none']
          exact ih h2
      | some c =>
          simp only [List.filterMap_cons, hs, Option.map_some']
          rw [List.pairwise_cons]
          refine ⟨?_, ih h2⟩
          intro y hy
          rw [List.mem_filterMap] at hy
          obtain ⟨o, ho, hy⟩ := hy
          cases hs' : score o.params args with
          | none => simp [hs'] at hy
          | some c' =>
              simp only [hs', Option.map_some', Option.some.injEq] at hy
              rw [← hy]
              exact h1 o ho

theorem exists_minimal_cost {α : Type} :
    ∀ M : List (Nat × α), M ≠ [] → ∃ x ∈ M, ∀ y ∈ M, x.1 ≤ y.1 := by
  intro M
  induction M with
  | nil => intro h; exact absurd rfl h
  | cons a M ih =>
      intro _
      cases M with
      | nil =>
          refine ⟨a, List.mem_cons_self _ _, ?_⟩
          intro y hy
          rw [List.mem_singleton] at hy
          rw [hy]
      | cons b M =>
          obtain ⟨x, hx, hmin⟩ := ih (List.cons_ne_nil _ _)
          by_cases hle : a.1 ≤ x.1
          · refine ⟨a, List.mem_cons_self _ _, ?_⟩
            intro y hy
            rw [List.mem_cons] at hy
            rcases hy with rfl | hy
            · exact le_refl _
            · exact le_trans hle (hmin y hy)
          · refine ⟨x, List.mem_cons_of_mem _ hx, ?_⟩
            intro y hy
            rw [List.mem_cons] at hy
            rcases hy with rfl | hy
            · omega
            · exact hmin y hy

theorem minimal_candidates_spec {Args : Type}
    (score : List LUABIND_TYPE_INFO → Args → Option Nat) (S : List overload_rep) (args : Args) :
    (∀ x, x ∈ (candidates score S args).filter
        (fun x => (candidates score S args).all (fun y => decide (x.1 ≤ y.1))) ↔
      (x.2 ∈ unshadowed S ∧ score x.2.params args = some x.1) ∧
      ∀ o ∈ unshadowed S, ∀ c, score o.params args = some c → x.1 ≤ c) ∧
    ((candidates score S args).filter
      (fun x => (candidates score S args).all (fun y => decide (x.1 ≤ y.1)))).Pairwise
        (fun x y => x.2.params ≠ y.2.params) := by
  refine ⟨?_, ?_⟩
  · intro x
    rw [List.mem_filter, List.all_eq_true, mem_candidates_iff]
    constructor
    · rintro ⟨h1, h2⟩
      refine ⟨h1, ?_⟩
      intro o ho c hc
      exact of_decide_eq_true
        (h2 (c, o) ((mem_candidates_iff score S args (c, o)).mpr ⟨ho, hc⟩))
    · rintro ⟨h1, h2⟩
      refine ⟨h1, ?_⟩
      intro y hy
      rw [mem_candidates_iff] at hy
      exact decide_eq_true (h2 y.2 hy.1 y.1 hy.2)
  · exact List.Pairwise.sublist (List.filter_sublist _)
      (candidates_pairwise score args _ (unshadowed_pairwise S))

/-- C8: publication moves the whole built surface. For every Lua state and every uncloned
builder, `commit` succeeds and creates one descriptor whose method table is the builder's
with every method's `crep` set to the new descriptor, and whose getter table, setter table,
operator lists, static constants and constructor overload set are the builder's; the
builder is left with all of these empty. -/
theorem commit_moves_tables {n : Nat} (L : lua_State n) (b : class_base n)
    (hc : b.m_cloned = false) :
    ∃ L' b' rep, b.commit L = some (L', b') ∧ L'.userdata = L.userdata ++ [rep] ∧
      rep.m_methods = b.m_methods.map
        (fun i => (i.1, { i.2 with crep := some L.userdata.length })) ∧
      (∀ i ∈ rep.m_methods, i.2.crep = some L.userdata.length) ∧
      rep.m_getters = b.m_getters ∧ rep.m_setters = b.m_setters ∧
      rep.m_operators = b.m_operators ∧ rep.m_static_constants = b.m_static_constants ∧
      rep.m_constructor = b.m_constructor ∧
      b'.m_methods = [] ∧ b'.m_getters = [] ∧ b'.m_setters = [] ∧
      (∀ i, b'.m_operators i = []) ∧ b'.m_static_constants = [] ∧
      b'.m_constructor.overloads = [] := by
  obtain ⟨L', b', rep, h1, h2, _, h3, h4, h5, h6, h7, h8, h9, h10, h11, h12, h13, h14, _⟩ :=
    class_base.commit_descriptor L b hc
  refine ⟨L', b', rep, h1, h2, h3, ?_, h4, h5, h6, h7, h8, h9, h10, h11, h12, h13, h14⟩
  intro i hi
  rw [h3, List.mem_map] at hi
  obtain ⟨j, _, hj⟩ := hi
  rw [← hj]

/-- C8 at a concrete input: publishing `sample_B_builder` in `state_A`; the new descriptor
is number 1, it holds the method `f`, and the builder's method table is empty afterwards. -/
theorem commit_moves_tables_witness :
    ∃ L' b' rep, sample_B_builder.commit state_A = some (L', b') ∧
      L'.userdata = state_A.userdata ++ [rep] ∧
      (map_find "f" rep.m_methods).map method_rep.crep = some (some 1) ∧
      b'.m_methods = [] := by
  obtain ⟨L', b', rep, h1, h2, h3, _, _, _, _, _, _, h4, _⟩ :=
    commit_moves_tables state_A sample_B_builder (by decide)
  refine ⟨L', b', rep, h1, h2, ?_, h4⟩
  rw [h3]
  decide

/-! ## A second `commit` -/

/-- C9, the code at the failing input: the builder `class_<C>("C")` is committed in the
empty state and the builder that this `commit` leaves behind is committed again. Both
commits pass the assertion: `m_cloned` is still false after the first, and the second
creates a second descriptor (number 1, with an empty method table) and stores it in the
scope table under the class name. -/
theorem second_commit_passes_assertion :
    (((class_.ctor sample_C "C" : class_base 11).commit empty_state).map
      (fun r => (r.1.userdata.length, r.2.m_cloned))) = some (1, false) ∧
    ((((class_.ctor sample_C "C" : class_base 11).commit empty_state).bind
      (fun r => r.2.commit r.1)).map
        (fun r => (r.1.userdata.length, map_find "C" r.1.scope))) = some (2, some 1) := by
  decide

/-! ## Properties -/

/-- C10: read-only properties. For every builder and every name without a setter,
`def_readonly` (with or without policies) and the getter-only `property` (with or without
get policies) bind a getter for the name and leave the setter table unchanged, so the name
has no setter; `def_readwrite` (all three overloads) and `property` with a getter and a
setter (all three overloads) bind both a getter and a setter for the name. -/
theorem read_only_properties {n : Nat} (A : class_args) (ids : operator_ids n)
    (b : class_base n) (name : String) (hs : map_find name b.m_setters = none) :
    (∀ (g member_ptr p : Nat) (policies : policies_t) (o : class_.op n),
      (o = class_.op.def_readonly name member_ptr ∨
        o = class_.op.def_readonly_policies name member_ptr policies ∨
        o = class_.op.property name g ∨
        o = class_.op.property_maybe_setter name g (maybe_setter.policy_cons p)) →
      (map_find name (class_.apply A ids b o).m_getters).isSome = true ∧
      (class_.apply A ids b o).m_setters = b.m_setters ∧
      map_find name (class_.apply A ids b o).m_setters = none) ∧
    (∀ (g s member_ptr : Nat) (get_policies set_policies : policies_t) (o : class_.op n),
      (o = class_.op.def_readwrite name member_ptr ∨
        o = class_.op.def_readwrite_get_policies name member_ptr get_policies ∨
        o = class_.op.def_readwrite_get_set_policies name member_ptr get_policies
          set_policies ∨
        o = class_.op.property_maybe_setter name g (maybe_setter.setter s) ∨
        o = class_.op.property_get_policies name g s get_policies ∨
        o = class_.op.property_get_set_policies name g s get_policies set_policies) →
      (map_find name (class_.apply A ids b o).m_getters).isSome = true ∧
      (map_find name (class_.apply A ids b o).m_setters).isSome = true) := by
  refine ⟨?_, ?_⟩
  · intro g member_ptr p policies o ho
    rcases ho with rfl | rfl | rfl | rfl <;>
      simp [class_.apply, class_.property_impl, class_base.add_getter,
        map_find_map_set_self, hs]
  · intro g s member_ptr get_policies set_policies o ho
    rcases ho with rfl | rfl | rfl | rfl | rfl | rfl <;>
      simp [class_.apply, class_.property_impl, class_base.add_getter, class_base.add_setter,
        map_find_map_set_self]

/-- C10 at a concrete input: on the fresh builder `class_<C>("C")`, `def_readonly("x", ...)`
binds a getter for `x` and no setter, `def_readwrite("x", ...)` binds both. -/
theorem read_only_properties_witness :
    ((map_find "x" (class_.apply sample_C sample_ids (class_.ctor sample_C "C")
        (class_.op.def_readonly "x" 4)).m_getters).isSome = true ∧
      map_find "x" (class_.apply sample_C sample_ids (class_.ctor sample_C "C")
        (class_.op.def_readonly "x" 4)).m_setters = none) ∧
    ((map_find "x" (class_.apply sample_C sample_ids (class_.ctor sample_C "C")
        (class_.op.def_readwrite "x" 4)).m_getters).isSome = true ∧
      (map_find "x" (class_.apply sample_C sample_ids (class_.ctor sample_C "C")
        (class_.op.def_readwrite "x" 4)).m_setters).isSome = true) :=
  have h := read_only_properties sample_C sample_ids (class_.ctor sample_C "C") "x"
    (by decide)
  ⟨⟨(h.1 0 4 0 none _ (Or.inl rfl)).1, (h.1 0 4 0 none _ (Or.inl rfl)).2.2⟩,
    h.2 0 0 4 none none _ (Or.inl rfl)⟩

/-! ## The shape of the method table -/

theorem map_set_keys {V : Type} (k : String) (v : V) (m : List (String × V)) :
    (map_set k v m).map Prod.fst =
      if k ∈ m.map Prod.fst then m.map Prod.fst else m.map Prod.fst ++ [k] := by
  induction m with
  | nil => simp [map_set]
  | cons a m ih =>
      obtain ⟨k', v'⟩ := a
      by_cases h : k' = k
      · simp [map_set, h]
      · have h' : ¬ k = k' := fun e => h e.symm
        by_cases hm : k ∈ m.map Prod.fst
        · rw [if_pos hm] at ih
          simp only [map_set, h, if_false, List.map_cons, ih]
          rw [if_pos (List.mem_cons_of_mem _ hm)]
        · rw [if_neg hm] at ih
          simp only [map_set, h, if_false, List.map_cons, ih]
          rw [if_neg (by simp only [List.mem_cons, not_or]; exact ⟨h', hm⟩)]
          rfl

namespace class_base

variable {n : Nat}

theorem add_method_find_self (b : class_base n) (name : String) (o : overload_rep) :
    map_find name (b.add_method name o).m_methods =
      some { name := name
             overloads := ((map_find name b.m_methods).getD method_rep.default).overloads ++ [o]
             crep := none } := by
  simp [add_method, map_find_map_set_self, method_rep.add_overload]

theorem add_method_find_other (b : class_base n) (name k : String) (o : overload_rep)
    (h : k ≠ name) :
    map_find k (b.add_method name o).m_methods = map_find k b.m_methods := by
  simp [add_method, map_find_map_set_of_ne _ _ _ _ h]

theorem add_method_keys (b : class_base n) (name : String) (o : overload_rep) :
    (b.add_method name o).m_methods.map Prod.fst =
      if name ∈ b.m_methods.map Prod.fst then b.m_methods.map Prod.fst
      else b.m_methods.map Prod.fst ++ [name] := by
  simp only [add_method, map_set_keys]

end class_base

theorem add_methods_find {n : Nat} (calls : List (String × overload_rep)) :
    ∀ (b : class_base n) (name : String),
      map_find name (add_methods b calls).m_methods =
        if name ∈ calls.map Prod.fst then
          some { name := name
                 overloads :=
                   ((map_find name b.m_methods).getD method_rep.default).overloads ++
                     (calls.filter (fun r => decide (r.1 = name))).map Prod.snd
                 crep := none }
        else map_find name b.m_methods := by
  induction calls with
  | nil => intro b name; simp [add_methods]
  | cons r calls ih =>
      intro b name
      obtain ⟨nm, o⟩ := r
      have h := ih (b.add_method nm o) name
      simp only [add_methods, List.foldl_cons] at h ⊢
      rw [h]
      by_cases h1 : nm = name
      · subst h1
        by_cases h2 : nm ∈ calls.map Prod.fst
        · simp [h2, class_base.add_method_find_self]
        · have h3 : calls.filter (fun r => decide (r.1 = nm)) = [] := by
            rw [List.filter_eq_nil_iff]
            intro x hx hxe
            exact h2 (List.mem_map.mpr ⟨x, hx, of_decide_eq_true hxe⟩)
          simp [h2, h3, class_base.add_method_find_self]
      · have h1' : name ≠ nm := fun e => h1 e.symm
        by_cases h2 : name ∈ calls.map Prod.fst
        · simp [h1, h1', h2, class_base.add_method_find_other _ _ _ _ h1']
        · simp [h1, h1', h2, class_base.add_method_find_other _ _ _ _ h1']

theorem add_methods_keys {n : Nat} (calls : List (String × overload_rep)) :
    ∀ b : class_base n,
      (∀ k, k ∈ (add_methods b calls).m_methods.map Prod.fst ↔
        k ∈ b.m_methods.map Prod.fst ∨ k ∈ calls.map Prod.fst) ∧
      ((b.m_methods.map Prod.fst).Nodup →
        ((add_methods b calls).m_methods.map Prod.fst).Nodup) := by
  induction calls with
  | nil => intro b; simp [add_methods]
  | cons r calls ih =>
      intro b
      obtain ⟨nm, o⟩ := r
      obtain ⟨h1, h2⟩ := ih (b.add_method nm o)
      simp only [add_methods, List.foldl_cons] at h1 h2 ⊢
      have hk := class_base.add_method_keys b nm o
      refine ⟨?_, ?_⟩
      · intro k
        rw [h1 k, hk]
        by_cases hm : nm ∈ b.m_methods.map Prod.fst
        · rw [if_pos hm]
          simp only [List.map_cons, List.mem_cons]
          constructor
          · rintro (h | h)
            · exact Or.inl h
            · exact Or.inr (Or.inr h)
          · rintro (h | h | h)
            · exact Or.inl h
            · exact Or.inl (h ▸ hm)
            · exact Or.inr h
        · rw [if_neg hm]
          simp only [List.map_cons, List.mem_cons, List.mem_append, List.mem_singleton]
          tauto
      · intro hnd
        apply h2
        rw [hk]
        by_cases hm : nm ∈ b.m_methods.map Prod.fst
        · rw [if_pos hm]; exact hnd
        · rw [if_neg hm]
          rw [List.nodup_append]
          refine ⟨hnd, List.nodup_singleton _, ?_⟩
          intro x hx hx'
          rw [List.mem_singleton] at hx'
          exact hm (hx' ▸ hx)

theorem add_constructors_overloads {n : Nat} (os : List overload_t) :
    ∀ b : class_base n,
      (add_constructors b os).m_constructor.overloads = b.m_constructor.overloads ++ os := by
  induction os with
  | nil => intro b; simp [add_constructors]
  | cons o os ih =>
      intro b
      have h := ih (b.add_constructor o)
      simp only [add_constructors, List.foldl_cons] at h ⊢
      rw [h]
      simp [class_base.add_constructor]

/-- C13: method table shape. For every builder and every sequence of `add_method` calls:
a name is a key of the resulting table exactly when it was one before or occurs in the
calls, and the keys stay pairwise distinct (one entry per distinct name, compared by
content); the entry of every name that occurs in the calls carries that name, a null
`crep`, and as overloads those the name had before followed by the overloads of the calls
for that name in registration order; the entry of every other name is unchanged. A single
call leaves the entries of all other names unchanged, and every sequence of
`add_constructor` calls appends its overloads, in order, to the constructor overload list. -/
theorem method_table_shape {n : Nat} (b : class_base n)
    (calls : List (String × overload_rep)) :
    (∀ k, k ∈ (add_methods b calls).m_methods.map Prod.fst ↔
      k ∈ b.m_methods.map Prod.fst ∨ k ∈ calls.map Prod.fst) ∧
    ((b.m_methods.map Prod.fst).Nodup →
      ((add_methods b calls).m_methods.map Prod.fst).Nodup) ∧
    (∀ name, name ∈ calls.map Prod.fst →
      map_find name (add_methods b calls).m_methods =
        some { name := name
               overloads :=
                 ((map_find name b.m_methods).getD method_rep.default).overloads ++
                   (calls.filter (fun r => decide (r.1 = name))).map Prod.snd
               crep := none }) ∧
    (∀ name, name ∉ calls.map Prod.fst →
      map_find name (add_methods b calls).m_methods = map_find name b.m_methods) ∧
    (∀ (name k : String) (o : overload_rep), k ≠ name →
      map_find k (b.add_method name o).m_methods = map_find k b.m_methods) ∧
    (∀ os : List overload_t,
      (add_constructors b os).m_constructor.overloads = b.m_constructor.overloads ++ os) := by
  refine ⟨(add_methods_keys calls b).1, (add_methods_keys calls b).2, ?_, ?_, ?_, ?_⟩
  · intro name h
    rw [add_methods_find, if_pos h]
  · intro name h
    rw [add_methods_find, if_neg h]
  · intro name k o h
    exact class_base.add_method_find_other b name k o h
  · intro os
    exact add_constructors_overloads os b

/-- C13 at a concrete input: on the fresh builder `class_<C>("C")`, the calls
`add_method("f", o1)`, `add_method("g", o3)`, `add_method("f", o2)` give a table with the
two keys `f` and `g`, and the entry of `f` holds `o1`, `o2` in this order. -/
theorem method_table_shape_witness :
    ((add_methods (class_.ctor sample_C "C" : class_base 11)
        [("f", sample_overload 1), ("g", sample_overload 3),
          ("f", sample_overload 2)]).m_methods.map Prod.fst).Nodup ∧
    map_find "f" (add_methods (class_.ctor sample_C "C" : class_base 11)
        [("f", sample_overload 1), ("g", sample_overload 3),
          ("f", sample_overload 2)]).m_methods =
      some { name := "f", overloads := [sample_overload 1, sample_overload 2], crep := none } :=
  have h := method_table_shape (class_.ctor sample_C "C" : class_base 11)
    [("f", sample_overload 1), ("g", sample_overload 3), ("f", sample_overload 2)]
  ⟨h.2.1 (by decide), (h.2.2.1 "f" (by decide)).trans (by decide)⟩

/-! ## Base edges -/

namespace class_base

variable {n : Nat}

theorem commit_base_edges (L : lua_State n) (b : class_base n) (hc : b.m_cloned = false) :
    ∃ L' b' rep, b.commit L = some (L', b') ∧ L'.userdata = L.userdata ++ [rep] ∧
      rep.m_bases = b.m_bases.map
        (fun i => { pointer_offset := i.ptr_offset, base := L'.registry.find_class i.type }) ∧
      rep.m_type = b.m_type ∧ rep.m_name = b.m_name ∧
      rep.m_const_holder_type = b.m_const_holder_type := by
  simp only [commit, hc, class_rep.ctor, commit_bases_eq, List.isEmpty_nil, Bool.not_true,
    Bool.false_eq_true, if_false]
  refine ⟨_, _, _, rfl, rfl, ?_⟩
  simp

end class_base

namespace class_

variable {n : Nat}

theorem generate_baseclass_list_bases (Base : List (Option (cpp_type × Int))) :
    ∀ b : class_base n, (generate_baseclass_list b Base).m_bases =
      b.m_bases ++ Base.filterMap
        (fun To => To.map (fun p => { type := LUABIND_TYPEID p.1, ptr_offset := p.2 })) := by
  induction Base with
  | nil => intro b; simp [generate_baseclass_list]
  | cons To Base ih =>
      intro b
      have h := ih (gen_base_info b To)
      simp only [generate_baseclass_list, List.foldl_cons] at h ⊢
      rw [h]
      cases To with
      | none => simp [gen_base_info]
      | some p =>
          obtain ⟨B, off⟩ := p
          simp [gen_base_info, class_base.add_base]

theorem apply_bases (A : class_args) (ids : operator_ids n) (b : class_base n) (o : op n) :
    (apply A ids b o).m_bases = b.m_bases := by
  cases o with
  | property_maybe_setter name g s => cases s <;> rfl
  | _ => rfl

theorem apply_all_bases (A : class_args) (ids : operator_ids n) (ops : List (op n)) :
    ∀ b : class_base n, (apply_all A ids b ops).m_bases = b.m_bases := by
  induction ops with
  | nil => intro b; rfl
  | cons o ops ih =>
      intro b
      have h := ih (apply A ids b o)
      simp only [apply_all, List.foldl_cons] at h ⊢
      rw [h, apply_bases]

end class_

/-- C14: base edges at publication. For every Lua state and every uncloned builder, `commit`
succeeds and the new descriptor gets exactly one base edge per entry of the builder's base
list, in the same order, the edge of the entry `(t, k)` carrying the offset `k` and what the
registry holds for the identity `t` when the edges are recorded (the registry as `commit`
leaves it, in which every identity bound before `commit` still has its descriptor). The
base list of a `class_<T, ...>` builder, after `init()` and any
registration calls, is the list of the `bases<...>` arguments in order, `null_type`
arguments skipped, each with its identity and pointer offset. -/
theorem base_edges_at_publication {n : Nat} (L : lua_State n) (b : class_base n)
    (hc : b.m_cloned = false) :
    (∃ L' b' rep, b.commit L = some (L', b') ∧ L'.userdata = L.userdata ++ [rep] ∧
      rep.m_bases.length = b.m_bases.length ∧
      rep.m_bases = b.m_bases.map
        (fun i => { pointer_offset := i.ptr_offset, base := L'.registry.find_class i.type }) ∧
      ∀ (t : LUABIND_TYPE_INFO) (d : Nat), L.registry.find_class t = some d →
        L'.registry.find_class t = some d) ∧
    (∀ (A : class_args) (ids : operator_ids n) (name : String) (ops : List (class_.op n)),
      (class_.apply_all A ids (class_.ctor A name) ops).m_bases =
        A.Base.filterMap
          (fun To => To.map (fun p => { type := LUABIND_TYPEID p.1, ptr_offset := p.2 }))) := by
  refine ⟨?_, ?_⟩
  · obtain ⟨L', b', rep, h1, h2, h3, _⟩ := class_base.commit_base_edges L b hc
    exact ⟨L', b', rep, h1, h2, by rw [h3, List.length_map], h3,
      fun t d hd => class_base.commit_preserves_bound L L' b b' t d hd h1⟩
  · intro A ids name ops
    rw [class_.apply_all_bases, class_.ctor, class_.init,
      class_.generate_baseclass_list_bases]
    rfl

/-- C14 at a concrete input: publishing `class_<Derived0, bases<Mid0, null_type, Base0>>`
after `Base0` and `Mid0` gives the descriptor two base edges, to descriptor 1 at offset 0
and to descriptor 0 at offset 8. -/
theorem base_edges_at_publication_witness :
    (state_derived.userdata[2]?).map (fun d => d.m_bases) =
        some [{ pointer_offset := 0, base := some 1 }, { pointer_offset := 8, base := some 0 }] ∧
    ∃ L' b' rep, (class_.ctor sample_derived "Derived0" : class_base 11).commit
        (commit_state (commit_state empty_state (class_.ctor sample_base "Base0"))
          (class_.ctor sample_mid "Mid0")) = some (L', b') ∧
      L'.userdata = (commit_state (commit_state empty_state (class_.ctor sample_base "Base0"))
          (class_.ctor sample_mid "Mid0")).userdata ++ [rep] ∧
      rep.m_bases.length = (class_.ctor sample_derived "Derived0" : class_base 11).m_bases.length :=
  ⟨by decide,
    have h := (base_edges_at_publication
      (commit_state (commit_state empty_state (class_.ctor sample_base "Base0"))
        (class_.ctor sample_mid "Mid0"))
      (class_.ctor sample_derived "Derived0" : class_base 11) (by decide)).1
    match h with
    | ⟨L', b', rep, h1, h2, h3, _, _⟩ => ⟨L', b', rep, h1, h2, h3⟩⟩

/-- C15, the code at the failing input: `class_<Mid0, bases<Base0>>("Mid0")` is committed in
the empty state, where `Base0` has not been registered. `commit` succeeds and the new
descriptor gets a base edge with offset 4 whose base reference is null. -/
theorem commit_records_null_base :
    ((class_.ctor sample_mid "Mid0" : class_base 11).commit empty_state).isSome = true ∧
    empty_state.registry.find_class (LUABIND_TYPEID sample_base.T) = none ∧
    ((commit_state empty_state (class_.ctor sample_mid "Mid0")).userdata[0]?).map
      (fun d => d.m_bases) = some [{ pointer_offset := 4, base := none }] := by
  decide

/-! ## `clone` -/

/-- C16: `clone` is a destructive copy that preserves what gets published. For every builder
that is not marked cloned, `clone` succeeds; the returned builder has the name, the
identities, the function pointers, size and alignment, the strings and all tables of the
original (it equals the original as it was before the call, and is not marked cloned), so
committing it in any Lua state gives the same result, registry bindings and descriptor
included, as committing the original would have; the original is left marked cloned with
its methods, getters, setters, operators, static constants, bases and constructors empty,
and both `commit` and `clone` on it fail their assertion. -/
theorem clone_preserves_publication {n : Nat} (b : class_base n) (hc : b.m_cloned = false) :
    ∃ b' ret, b.clone = some (b', ret) ∧ ret = b ∧ ret.m_cloned = false ∧
      (∀ L : lua_State n, ret.commit L = b.commit L) ∧
      (∀ L : lua_State n, (ret.commit L).isSome = true) ∧
      b'.m_cloned = true ∧
      b'.m_methods = [] ∧ b'.m_getters = [] ∧ b'.m_setters = [] ∧
      (∀ i, b'.m_operators i = []) ∧ b'.m_static_constants = [] ∧ b'.m_bases = [] ∧
      b'.m_constructor.overloads = [] ∧
      (∀ L : lua_State n, b'.commit L = none) ∧ b'.clone = none := by
  have hret : ({ (class_base.ctor b.m_name : class_base n) with
        m_getters := b.m_getters
        m_setters := b.m_setters
        m_operators := b.m_operators
        m_static_constants := b.m_static_constants
        m_destructor := b.m_destructor
        m_extractor := b.m_extractor
        m_construct_held_type := b.m_construct_held_type
        m_held_type_size := b.m_held_type_size
        m_held_type_alignment := b.m_held_type_alignment
        m_bases := b.m_bases
        m_methods := b.m_methods
        m_constructor := b.m_constructor
        m_name := b.m_name
        m_type := b.m_type
        m_held_type := b.m_held_type
        m_const_holder_type := b.m_const_holder_type
        m_strings := b.m_strings } : class_base n) = b := by
    cases b
    simp only [class_base.ctor] at hc ⊢
    simp [hc]
  simp only [class_base.clone, hc, bne_self_eq_false, Bool.false_eq_true, if_false]
  refine ⟨_, _, rfl, hret, ?_, ?_, ?_, rfl, rfl, rfl, rfl, fun _ => rfl, rfl, rfl, rfl,
    ?_, ?_⟩
  · rw [hret]; exact hc
  · intro L; rw [hret]
  · intro L
    rw [hret]
    obtain ⟨L', b1, h, _⟩ := class_base.commit_registry L b hc
    rw [h]; rfl
  · intro L
    simp [class_base.commit]
  · simp [class_base.clone]

/-- C16 at a concrete input: `sample_B_builder` is cloned; committing the clone in `state_A`
gives what committing the builder itself gives, and the builder left behind cannot be
committed. -/
theorem clone_preserves_publication_witness :
    ∃ b' ret, sample_B_builder.clone = some (b', ret) ∧
      ret.commit state_A = sample_B_builder.commit state_A ∧
      (ret.commit state_A).isSome = true ∧ b'.commit state_A = none :=
  match clone_preserves_publication sample_B_builder (by decide) with
  | ⟨b', ret, h1, _, _, h2, h3, _, _, _, _, _, _, _, _, h4, _⟩ =>
    ⟨b', ret, h1, h2 state_A, h3 state_A, h4 state_A⟩

/-! ## Registering a property twice -/

/-- C17, the code at the failing input: on the fresh builder `class_<C>("C")`,
`def_readwrite("x", m4)` followed by `def_readonly("x", m5)`. The name `x` has one getter
entry, the getter of the second registration, and still the setter of the first. -/
theorem readonly_after_readwrite_keeps_setter :
    map_find "x" (class_.apply_all sample_C sample_ids (class_.ctor sample_C "C")
        [class_.op.def_readwrite "x" 4, class_.op.def_readonly "x" 5]).m_getters =
      some { func := property_fn.auto_get none 5, pointer_offset := 0 } ∧
    (class_.apply_all sample_C sample_ids (class_.ctor sample_C "C")
        [class_.op.def_readwrite "x" 4, class_.op.def_readonly "x" 5]).m_getters.length = 1 ∧
    map_find "x" (class_.apply_all sample_C sample_ids (class_.ctor sample_C "C")
        [class_.op.def_readwrite "x" 4, class_.op.def_readonly "x" 5]).m_setters =
      some { func := property_fn.auto_set none 4, pointer_offset := 0 } := by
  decide

/-! ## Casting along base edges -/

/-- C12, the claim as stated fails: the overload set holds two overloads with the same
parameter types, registered one after the other; both match the call with cost 0, the
minimum, so two matching overloads tie at the minimum cost, and matching succeeds with the
second instead of failing as ambiguous. -/
theorem tie_of_same_signature_is_not_ambiguous :
    sample_overload 1 ≠ sample_overload 2 ∧
    sample_score (sample_overload 1).params [LUABIND_TYPE_INFO.id 3] = some 0 ∧
    sample_score (sample_overload 2).params [LUABIND_TYPE_INFO.id 3] = some 0 ∧
    find_best_match sample_score [sample_overload 1, sample_overload 2]
      [LUABIND_TYPE_INFO.id 3] = match_result.success (sample_overload 2) := by
  decide

/-- C12 (amended): for every overload set and argument list, with the overloads that a
later overload of identical parameter types shadows left out (an overload takes part
exactly when no overload registered after it has the same parameter types): matching
succeeds with `o` if and only if `o` takes part, matches, and every other participant that
matches has a strictly higher total cost; it fails with no-match if and only if no overload
of the set matches; it fails as ambiguous if and only if two different participants match
at the minimum cost, and then the reported candidates are exactly the participants of
minimum cost; on either failure no thunk is executed, on success the thunk of `o` is. -/
theorem overload_selection_outcome {Args : Type}
    (score : List LUABIND_TYPE_INFO → Args → Option Nat) (S : List overload_rep)
    (args : Args) :
    (∀ o, find_best_match score S args = match_result.success o ↔
      o ∈ unshadowed S ∧ ∃ c, score o.params args = some c ∧
        ∀ o' ∈ unshadowed S, ∀ c', score o'.params args = some c' → o' ≠ o → c < c') ∧
    (find_best_match score S args = match_result.no_match ↔
      ∀ o ∈ S, score o.params args = none) ∧
    ((∃ tied, find_best_match score S args = match_result.ambiguous tied) ↔
      ∃ o1 ∈ unshadowed S, ∃ o2 ∈ unshadowed S, o1 ≠ o2 ∧
        ∃ c, score o1.params args = some c ∧ score o2.params args = some c ∧
          ∀ o' ∈ unshadowed S, ∀ c', score o'.params args = some c' → c ≤ c') ∧
    (∀ tied, find_best_match score S args = match_result.ambiguous tied →
      ∀ o, o ∈ tied ↔ o ∈ unshadowed S ∧ ∃ c, score o.params args = some c ∧
        ∀ o' ∈ unshadowed S, ∀ c', score o'.params args = some c' → c ≤ c') ∧
    (∀ o, find_best_match score S args = match_result.success o →
      executed_thunk (find_best_match score S args) = some o.call_fun) ∧
    ((∀ o, find_best_match score S args ≠ match_result.success o) →
      executed_thunk (find_best_match score S args) = none) ∧
    (∀ o, o ∈ unshadowed S ↔
      ∃ pre post, S = pre ++ o :: post ∧ ∀ p ∈ post, p.params ≠ o.params) := by
  obtain ⟨hmem, hpw⟩ := minimal_candidates_spec score S args
  have hne : (∃ o ∈ S, ∃ c, score o.params args = some c) →
      ∃ x, x ∈ (candidates score S args).filter
        (fun x => (candidates score S args).all (fun y => decide (x.1 ≤ y.1))) := by
    rintro ⟨o, ho, c, hc⟩
    obtain ⟨o', ho', hoe⟩ := unshadowed_covers S o ho
    have hin : (c, o') ∈ candidates score S args :=
      (mem_candidates_iff score S args (c, o')).mpr ⟨ho', by rw [hoe]; exact hc⟩
    obtain ⟨x, hx, hmin⟩ := exists_minimal_cost (candidates score S args)
      (List.ne_nil_of_mem hin)
    refine ⟨x, (hmem x).mpr ⟨(mem_candidates_iff score S args x).mp hx, ?_⟩⟩
    intro o2 ho2 c2 hc2
    exact hmin (c2, o2) ((mem_candidates_iff score S args (c2, o2)).mpr ⟨ho2, hc2⟩)
  have hfun : ∀ (o : overload_rep) (c c' : Nat), score o.params args = some c →
      score o.params args = some c' → c = c' := by
    intro o c c' h1 h2
    rw [h1] at h2
    exact Option.some.inj h2
  have hstrict : ∀ (o : overload_rep) (c : Nat), o ∈ unshadowed S →
      score o.params args = some c →
      (∀ o' ∈ unshadowed S, ∀ c', score o'.params args = some c' → o' ≠ o → c < c') →
      ∀ o' ∈ unshadowed S, ∀ c', score o'.params args = some c' → c ≤ c' := by
    intro o c _ hc hs o' ho' c' hc'
    by_cases he : o' = o
    · rw [he] at hc'
      exact le_of_eq (hfun o c c' hc hc')
    · exact le_of_lt (hs o' ho' c' hc' he)
  unfold find_best_match
  generalize (candidates score S args).filter
      (fun x => (candidates score S args).all (fun y => decide (x.1 ≤ y.1))) = W
    at hmem hpw hne
  refine ⟨?_, ?_, ?_, ?_, ?_, ?_, fun o => mem_unshadowed_iff o S⟩
  · intro o
    match W, hmem, hpw, hne with
    | [], hmem, _, _ =>
        constructor
        · intro h; simp at h
        · rintro ⟨ho, c, hc, hs⟩
          have hin : (c, o) ∈ ([] : List (Nat × overload_rep)) :=
            (hmem (c, o)).mpr ⟨⟨ho, hc⟩, hstrict o c ho hc hs⟩
          exact absurd hin (List.not_mem_nil _)
    | [w], hmem, _, _ =>
        have hw := (hmem w).mp (List.mem_singleton_self w)
        constructor
        · intro h
          have hwo : w.2 = o := by simpa using h
          rw [← hwo]
          refine ⟨hw.1.1, w.1, hw.1.2, ?_⟩
          intro o' ho' c' hc' hne'
          have hle := hw.2 o' ho' c' hc'
          rcases Nat.lt_or_ge w.1 c' with hlt | hge
          · exact hlt
          · have heq : c' = w.1 := le_antisymm hge hle
            have hin : (c', o') ∈ [w] := by
              apply (hmem (c', o')).mpr
              refine ⟨⟨ho', hc'⟩, ?_⟩
              intro o2 ho2 c2 hc2
              rw [heq]
              exact hw.2 o2 ho2 c2 hc2
            rw [List.mem_singleton] at hin
            exact absurd (congrArg Prod.snd hin) hne'
        · rintro ⟨ho, c, hc, hs⟩
          have hin : (c, o) ∈ [w] := (hmem (c, o)).mpr ⟨⟨ho, hc⟩, hstrict o c ho hc hs⟩
          rw [List.mem_singleton] at hin
          rw [← hin]
    | w1 :: w2 :: rest, hmem, hpw, _ =>
        constructor
        · intro h; simp at h
        · rintro ⟨ho, c, hc, hs⟩
          have h1 := (hmem w1).mp (List.mem_cons_self _ _)
          have h2 := (hmem w2).mp (List.mem_cons_of_mem _ (List.mem_cons_self _ _))
          have e1 : w1.2 = o := by
            by_contra hne'
            have := hs w1.2 h1.1.1 w1.1 h1.1.2 hne'
            have := h1.2 o ho c hc
            omega
          have e2 : w2.2 = o := by
            by_contra hne'
            have := hs w2.2 h2.1.1 w2.1 h2.1.2 hne'
            have := h2.2 o ho c hc
            omega
          rw [List.pairwise_cons] at hpw
          exact absurd (by rw [e1, e2]) (hpw.1 w2 (List.mem_cons_self _ _))
  · match W, hmem, hpw, hne with
    | [], _, _, hne =>
        constructor
        · intro _ o ho
          cases hs : score o.params args with
          | none => rfl
          | some c =>
              obtain ⟨x, hx⟩ := hne ⟨o, ho, c, hs⟩
              exact absurd hx (List.not_mem_nil _)
        · intro _; rfl
    | [w], hmem, _, _ =>
        have hw := (hmem w).mp (List.mem_singleton_self w)
        constructor
        · intro h; simp at h
        · intro h
          have := h w.2 (mem_of_mem_unshadowed _ _ hw.1.1)
          rw [hw.1.2] at this
          exact absurd this (by simp)
    | w1 :: w2 :: rest, hmem, _, _ =>
        have hw := (hmem w1).mp (List.mem_cons_self _ _)
        constructor
        · intro h; simp at h
        · intro h
          have := h w1.2 (mem_of_mem_unshadowed _ _ hw.1.1)
          rw [hw.1.2] at this
          exact absurd this (by simp)
  · match W, hmem, hpw, hne with
    | [], hmem, _, _ =>
        constructor
        · rintro ⟨tied, h⟩; simp at h
        · rintro ⟨o1, ho1, _, _, _, c, hc1, _, hmin⟩
          have hin : (c, o1) ∈ ([] : List (Nat × overload_rep)) :=
            (hmem (c, o1)).mpr ⟨⟨ho1, hc1⟩, hmin⟩
          exact absurd hin (List.not_mem_nil _)
    | [w], hmem, _, _ =>
        constructor
        · rintro ⟨tied, h⟩; simp at h
        · rintro ⟨o1, ho1, o2, ho2, hne', c, hc1, hc2, hmin⟩
          have hin1 : (c, o1) ∈ [w] := (hmem (c, o1)).mpr ⟨⟨ho1, hc1⟩, hmin⟩
          have hin2 : (c, o2) ∈ [w] := (hmem (c, o2)).mpr ⟨⟨ho2, hc2⟩, hmin⟩
          rw [List.mem_singleton] at hin1 hin2
          exact absurd (congrArg Prod.snd (hin1.trans hin2.symm)) hne'
    | w1 :: w2 :: rest, hmem, hpw, _ =>
        have h1 := (hmem w1).mp (List.mem_cons_self _ _)
        have h2 := (hmem w2).mp (List.mem_cons_of_mem _ (List.mem_cons_self _ _))
        constructor
        · intro _
          rw [List.pairwise_cons] at hpw
          have hne' : w1.2 ≠ w2.2 := fun e =>
            hpw.1 w2 (List.mem_cons_self _ _) (by rw [e])
          have heq : w2.1 = w1.1 :=
            le_antisymm (h2.2 w1.2 h1.1.1 w1.1 h1.1.2) (h1.2 w2.2 h2.1.1 w2.1 h2.1.2)
          exact ⟨w1.2, h1.1.1, w2.2, h2.1.1, hne', w1.1, h1.1.2, by rw [← heq]; exact h2.1.2,
            h1.2⟩
        · intro _; exact ⟨_, rfl⟩
  · intro tied h o
    match W, hmem, hpw, hne, h with
    | w1 :: w2 :: rest, hmem, _, _, h =>
        have ht : tied = (w1 :: w2 :: rest).map Prod.snd := by
          simp only [match_result.ambiguous.injEq] at h
          exact h.symm
        rw [ht, List.mem_map]
        constructor
        · rintro ⟨x, hx, rfl⟩
          have := (hmem x).mp hx
          exact ⟨this.1.1, x.1, this.1.2, this.2⟩
        · rintro ⟨ho, c, hc, hmin⟩
          exact ⟨(c, o), (hmem (c, o)).mpr ⟨⟨ho, hc⟩, hmin⟩, rfl⟩
  · intro o h
    rw [h]; rfl
  · intro h
    match W, h with
    | [], _ => rfl
    | [w], h => exact absurd rfl (h w.2)
    | w1 :: w2 :: rest, _ => rfl

/-- C12 at a concrete input: no overload of the sample set takes an argument of identity 9,
so matching fails with no-match. -/
theorem overload_selection_outcome_witness :
    find_best_match sample_score [sample_overload 1, sample_overload 2]
      [LUABIND_TYPE_INFO.id 9] = match_result.no_match :=
  (overload_selection_outcome sample_score [sample_overload 1, sample_overload 2]
    [LUABIND_TYPE_INFO.id 9]).2.1.mpr (by decide)

/-! ## The index shim `lua_absindex` -/

theorem wrap_int_of_range (x : Int) (h1 : -2147483648 ≤ x) (h2 : x < 2147483648) :
    wrap_int x = x := by
  unfold wrap_int; omega

theorem wrap_int_add_wrap_int (a b : Int) : wrap_int (a + wrap_int b) = wrap_int (a + b) := by
  unfold wrap_int; omega

theorem lua_gettop_range (L : stack_state) :
    -2147483648 ≤ lua_gettop L ∧ lua_gettop L < 2147483648 := by
  unfold lua_gettop wrap_int; omega

/-- C18: `lua_absindex` converts a relative index to the absolute index of the same slot.
For every state, with `top` the value of `lua_gettop`, and every `k` with `1 ≤ k ≤ top` and
`-k > LUA_REGISTRYINDEX`: `lua_absindex(L, -k) = top - k + 1`, which lies in `[1, top]` and,
the stack height being what `lua_gettop` reports, denotes the same stack slot as `-k`;
every `i ≥ 0` and every pseudo-index `i ≤ LUA_REGISTRYINDEX` is returned unchanged; on all
these inputs applying `lua_absindex` again changes nothing. -/
theorem lua_absindex_spec (cfg : lua_config) (L : stack_state) (k : Int) (hk1 : 1 ≤ k)
    (hk2 : k ≤ lua_gettop L) (hk3 : -k > cfg.LUA_REGISTRYINDEX) :
    lua_absindex cfg L (-k) = lua_gettop L - k + 1 ∧
    1 ≤ lua_absindex cfg L (-k) ∧ lua_absindex cfg L (-k) ≤ lua_gettop L ∧
    ((L.stack.length : Int) = lua_gettop L →
      stack_index cfg L (lua_absindex cfg L (-k)) = stack_index cfg L (-k) ∧
      (stack_index cfg L (-k)).isSome = true) ∧
    lua_absindex cfg L (lua_absindex cfg L (-k)) = lua_absindex cfg L (-k) ∧
    (∀ i : Int, 0 ≤ i → lua_absindex cfg L i = i ∧
      lua_absindex cfg L (lua_absindex cfg L i) = lua_absindex cfg L i) ∧
    (∀ i : Int, i ≤ cfg.LUA_REGISTRYINDEX → lua_absindex cfg L i = i ∧
      lua_absindex cfg L (lua_absindex cfg L i) = lua_absindex cfg L i) := by
  obtain ⟨ht1, ht2⟩ := lua_gettop_range L
  have habs : lua_absindex cfg L (-k) = lua_gettop L - k + 1 := by
    have hc : -k < 0 ∧ -k > cfg.LUA_REGISTRYINDEX := ⟨by omega, hk3⟩
    simp only [lua_absindex, hc, and_self, if_true]
    rw [wrap_int_add_wrap_int, wrap_int_of_range _ (by omega) (by omega)]
    omega
  have hpos : ∀ i : Int, 0 ≤ i → lua_absindex cfg L i = i := by
    intro i hi
    have hc : ¬ (i < 0 ∧ i > cfg.LUA_REGISTRYINDEX) := by omega
    simp only [lua_absindex, hc, if_false]
  have hpseudo : ∀ i : Int, i ≤ cfg.LUA_REGISTRYINDEX → lua_absindex cfg L i = i := by
    intro i hi
    have hc : ¬ (i < 0 ∧ i > cfg.LUA_REGISTRYINDEX) := by omega
    simp only [lua_absindex, hc, if_false]
  refine ⟨habs, by rw [habs]; omega, by rw [habs]; omega, ?_, ?_, ?_, ?_⟩
  · intro hlen
    rw [habs]
    have c1 : 0 < lua_gettop L - k + 1 ∧ lua_gettop L - k + 1 ≤ (L.stack.length : Int) := by
      omega
    have c2 : ¬ (0 < -k ∧ -k ≤ (L.stack.length : Int)) := by omega
    have c3 : -k < 0 ∧ cfg.LUA_REGISTRYINDEX < -k ∧ - -k ≤ (L.stack.length : Int) := by
      omega
    simp only [stack_index, c1, c2, c3, and_self, if_true, if_false, Option.isSome_some,
      Option.some.injEq, and_true]
    omega
  · rw [habs]; exact hpos _ (by omega)
  · intro i hi
    exact ⟨hpos i hi, by rw [hpos i hi, hpos i hi]⟩
  · intro i hi
    exact ⟨hpseudo i hi, by rw [hpseudo i hi, hpseudo i hi]⟩

/-- C18 at a concrete input: on the sample stack of height 3, with the constants of Lua 5.1,
`lua_absindex(L, -3)` is 1. -/
theorem lua_absindex_spec_witness :
    lua_absindex lua51 sample_stack (-3) = lua_gettop sample_stack - 3 + 1 ∧
    lua_absindex lua51 sample_stack (-3) = 1 :=
  ⟨(lua_absindex_spec lua51 sample_stack 3 (by decide) (by decide) (by decide)).1,
    by decide⟩

/-! ## The shims `lua_rawsetp` and `lua_rawgetp` -/

theorem lookup_filter_ne (k : TValue) (h : List (TValue × TValue)) :
    (h.filter (fun e => !decide (e.1 = k))).lookup k = none := by
  induction h with
  | nil => rfl
  | cons a h ih =>
      obtain ⟨a1, a2⟩ := a
      by_cases he : a1 = k
      · simp [List.filter_cons, he, ih]
      · have hk : (k == a1) = false := by
          simpa using fun e : k = a1 => he e.symm
        simp [List.filter_cons, he, List.lookup, hk, ih]

theorem table_get_table_set (k v : TValue) (h : List (TValue × TValue)) :
    table_get k (table_set k v h) = v := by
  unfold table_get table_set
  by_cases hv : v = TValue.nil
  · simp [hv, lookup_filter_ne]
  · simp [hv, List.lookup]

theorem config_bounds (cfg : lua_config) :
    cfg.LUA_REGISTRYINDEX < 0 ∧ (cfg.LUAI_MAXCSTACK : Int) < 2147483648 := by
  have h1 := cfg.registry_lt
  have h2 := cfg.registry_ge
  omega

theorem lua_gettop_of_lt (L : stack_state) (h : L.stack.length < 2147483648) :
    lua_gettop L = (L.stack.length : Int) := by
  unfold lua_gettop
  exact wrap_int_of_range _ (by omega) (by omega)

theorem lua_absindex_of_stack_index (cfg : lua_config) (L : stack_state) (i : Int) (pos : Nat)
    (hlen : L.stack.length < 2147483648) (hi : stack_index cfg L i = some pos) :
    lua_absindex cfg L i = (pos : Int) + 1 ∧ pos < L.stack.length := by
  have hR := (config_bounds cfg).1
  unfold stack_index at hi
  by_cases c1 : 0 < i ∧ i ≤ (L.stack.length : Int)
  · rw [if_pos c1] at hi
    have hp : pos = (i - 1).toNat := (Option.some.inj hi).symm
    have hc : ¬ (i < 0 ∧ i > cfg.LUA_REGISTRYINDEX) := by omega
    simp only [lua_absindex, hc, if_false]
    omega
  · rw [if_neg c1] at hi
    by_cases c2 : i < 0 ∧ cfg.LUA_REGISTRYINDEX < i ∧ -i ≤ (L.stack.length : Int)
    · rw [if_pos c2] at hi
      have hp : pos = ((L.stack.length : Int) + i).toNat := (Option.some.inj hi).symm
      have hc : i < 0 ∧ i > cfg.LUA_REGISTRYINDEX := ⟨c2.1, c2.2.1⟩
      simp only [lua_absindex, hc, and_self, if_true]
      rw [wrap_int_add_wrap_int, lua_gettop_of_lt L hlen,
        wrap_int_of_range _ (by omega) (by omega)]
      omega
    · rw [if_neg c2] at hi
      exact absurd hi (by simp)

theorem index2adr_absolute (cfg : lua_config) (M : stack_state) (pos : Nat)
    (h : pos < M.stack.length) : index2adr cfg M ((pos : Int) + 1) = M.stack[pos]? := by
  have hR := (config_bounds cfg).1
  have c0 : ¬ ((pos : Int) + 1 ≤ cfg.LUA_REGISTRYINDEX) := by omega
  have c1 : 0 < (pos : Int) + 1 ∧ (pos : Int) + 1 ≤ (M.stack.length : Int) := by omega
  have hp : ((pos : Int) + 1 - 1).toNat = pos := by omega
  simp only [index2adr, c0, if_false, stack_index, c1, and_self, if_true, hp]

theorem index2adr_cases (cfg : lua_config) (M : stack_state) (i : Int) (x : TValue)
    (h : index2adr cfg M i = some x) :
    (i ≤ cfg.LUA_REGISTRYINDEX ∧ M.pseudo i = some x) ∨
    (¬ i ≤ cfg.LUA_REGISTRYINDEX ∧ ∃ pos, stack_index cfg M i = some pos ∧
      M.stack[pos]? = some x) := by
  unfold index2adr at h
  by_cases c : i ≤ cfg.LUA_REGISTRYINDEX
  · rw [if_pos c] at h; exact Or.inl ⟨c, h⟩
  · rw [if_neg c] at h
    cases hs : stack_index cfg M i with
    | none => rw [hs] at h; exact absurd h (by simp)
    | some pos => rw [hs] at h; exact Or.inr ⟨c, pos, rfl, h⟩

theorem lua_absindex_pseudo (cfg : lua_config) (L : stack_state) (i : Int)
    (h : i ≤ cfg.LUA_REGISTRYINDEX) : lua_absindex cfg L i = i := by
  have hc : ¬ (i < 0 ∧ i > cfg.LUA_REGISTRYINDEX) := by omega
  simp only [lua_absindex, hc, if_false]

theorem index2adr_pseudo (cfg : lua_config) (M : stack_state) (i : Int)
    (h : i ≤ cfg.LUA_REGISTRYINDEX) : index2adr cfg M i = M.pseudo i := by
  simp only [index2adr, h, if_true]

theorem lua_rawgetp_ok (cfg : lua_config) (M : stack_state) (i : Int) (t p : Nat)
    (h : List (TValue × TValue)) (hlen : M.stack.length < 2147483648)
    (hroom : M.stack.length < M.ci_top)
    (hidx : index2adr cfg M i = some (TValue.table t)) (htab : M.tables t = some h) :
    lua_rawgetp cfg M i p =
      Except.ok { M with stack := M.stack ++ [table_get (TValue.lightuserdata p) h] } := by
  have hidx' : index2adr cfg { M with stack := M.stack ++ [TValue.lightuserdata p] }
      (lua_absindex cfg M i) = some (TValue.table t) := by
    rcases index2adr_cases cfg M i _ hidx with ⟨c, hp⟩ | ⟨_, pos, hs, hv⟩
    · rw [lua_absindex_pseudo cfg M i c, index2adr_pseudo _ _ _ c]
      exact hp
    · obtain ⟨ha, hlt⟩ := lua_absindex_of_stack_index cfg M i pos hlen hs
      rw [ha, index2adr_absolute]
      · simp only []
        rw [List.getElem?_append_left hlt]
        exact hv
      · simp only [List.length_append, List.length_singleton]
        omega
  simp only [lua_rawgetp, lua_pushlightuserdata, hroom, if_true, lua_rawget, hidx',
    List.getLast?_concat, htab,
    List.dropLast_concat]

theorem lua_rawsetp_ok (cfg : lua_config) (L : stack_state) (rest : List TValue) (v : TValue)
    (i : Int) (t p : Nat) (h : List (TValue × TValue))
    (hstack : L.stack = rest ++ [v])
    (hi : (i ≤ cfg.LUA_REGISTRYINDEX ∧ L.pseudo i = some (TValue.table t)) ∨
      (∃ pos, stack_index cfg L i = some pos ∧ pos < rest.length ∧
        rest[pos]? = some (TValue.table t)))
    (htab : L.tables t = some h)
    (hroom : L.stack.length + 1 ≤ cfg.LUAI_MAXCSTACK) :
    lua_rawsetp cfg L i p =
      Except.ok { L with
        ci_top := max L.ci_top (L.stack.length + 1)
        tables := fun u =>
          if u = t then some (table_set (TValue.lightuserdata p) v h) else L.tables u
        stack := rest } := by
  obtain ⟨hR, hM⟩ := config_bounds cfg
  have hRlt := cfg.registry_lt
  have hlen : L.stack.length < 2147483648 := by omega
  have hlen' : L.stack.length = rest.length + 1 := by rw [hstack]; simp
  have hcheck : ¬ (1 > cfg.LUAI_MAXCSTACK ∨ L.stack.length + 1 > cfg.LUAI_MAXCSTACK) := by
    omega
  have hpush : L.stack.length < max L.ci_top (L.stack.length + 1) := by omega
  have hins : stack_index cfg
      { L with ci_top := max L.ci_top (L.stack.length + 1)
               stack := L.stack ++ [TValue.lightuserdata p] } (-2) = some rest.length := by
    have c1 : ¬ (0 < (-2 : Int) ∧ (-2 : Int) ≤
        ((L.stack ++ [TValue.lightuserdata p]).length : Int)) := by omega
    have c2 : (-2 : Int) < 0 ∧ cfg.LUA_REGISTRYINDEX < -2 ∧
        - (-2 : Int) ≤ ((L.stack ++ [TValue.lightuserdata p]).length : Int) := by
      simp only [List.length_append, List.length_singleton]
      omega
    simp only [stack_index, c1, c2, and_self, if_true, if_false, Option.some.injEq]
    simp only [List.length_append, List.length_singleton]
    omega
  have hnew : (L.stack ++ [TValue.lightuserdata p]).take rest.length ++
      [TValue.lightuserdata p] ++
      (L.stack ++ [TValue.lightuserdata p]).dropLast.drop rest.length =
        rest ++ [TValue.lightuserdata p, v] := by
    rw [hstack]
    simp
  have hidx : index2adr cfg
      { L with ci_top := max L.ci_top (L.stack.length + 1)
               stack := rest ++ [TValue.lightuserdata p, v] }
      (lua_absindex cfg L i) = some (TValue.table t) := by
    rcases hi with ⟨c, hp⟩ | ⟨pos, hs, hlt, hv⟩
    · rw [lua_absindex_pseudo cfg L i c, index2adr_pseudo _ _ _ c]
      exact hp
    · obtain ⟨ha, _⟩ := lua_absindex_of_stack_index cfg L i pos hlen hs
      rw [ha, index2adr_absolute]
      · simp only []
        rw [List.getElem?_append_left hlt]
        exact hv
      · simp only [List.length_append, List.length_cons, List.length_nil]
        omega
  simp only [lua_rawsetp, luaL_checkstack, hcheck, if_false, lua_pushlightuserdata, hpush,
    if_true, lua_insert, hins, List.getLast?_concat,
    hnew, lua_rawset, hidx]
  simp [htab]

theorem lookup_filter_other (k k' : TValue) (hne : k' ≠ k) (h : List (TValue × TValue)) :
    (h.filter (fun e => !decide (e.1 = k))).lookup k' = h.lookup k' := by
  induction h with
  | nil => rfl
  | cons a h ih =>
      obtain ⟨a1, a2⟩ := a
      by_cases he : a1 = k
      · subst he
        have hk : (k' == a1) = false := by simpa using hne
        simp [List.filter_cons, List.lookup, hk, ih]
      · by_cases hk : k' = a1
        · subst hk
          simp [List.filter_cons, he, List.lookup]
        · have hk' : (k' == a1) = false := by simpa using hk
          simp [List.filter_cons, he, List.lookup, hk', ih]

theorem table_get_table_set_other (k k' v : TValue) (hne : k' ≠ k)
    (h : List (TValue × TValue)) : table_get k' (table_set k v h) = table_get k' h := by
  unfold table_get table_set
  have hk : (k' == k) = false := by simpa using hne
  by_cases hv : v = TValue.nil
  · simp [hv, lookup_filter_other k k' hne]
  · simp [hv, List.lookup, hk, lookup_filter_other k k' hne]

/-- C19, the claim as stated fails: with the constants of Lua 5.1, `full_stack` has a value
on top and the table 0 at the valid index 1 below it, but its 8000 slots are all a C
function may use: `luaL_checkstack` cannot grow the stack and `lua_rawsetp` raises the
error "stack overflow (not enough stack slots)" instead of storing the value. -/
theorem lua_rawsetp_fails_on_full_stack :
    full_stack.stack.getLast? = some (TValue.number 7) ∧
    full_stack.stack.length = 8000 ∧
    index2adr lua51 full_stack 1 = some (TValue.table 0) ∧
    full_stack.tables 0 = some [] ∧
    lua_rawsetp lua51 full_stack 1 99 =
      Except.error (lua_fault.error "stack overflow (not enough stack slots)") := by
  have hlen : full_stack.stack.length = 8000 := by
    simp only [full_stack, List.length_cons, List.length_append, List.length_replicate,
      List.length_nil]
  refine ⟨?_, hlen, ?_, rfl, ?_⟩
  · exact List.getLast?_concat (TValue.table 0 :: List.replicate 7998 (TValue.number 7))
  · have h := index2adr_absolute lua51 full_stack 0 (by rw [hlen]; decide)
    rw [show (1 : Int) = ((0 : Nat) : Int) + 1 from rfl, h]
    simp only [full_stack, List.cons_append, List.getElem?_cons_zero]
  · have hcheck : 1 > lua51.LUAI_MAXCSTACK ∨
        full_stack.stack.length + 1 > lua51.LUAI_MAXCSTACK := by
      rw [hlen]; decide
    simp only [lua_rawsetp, luaL_checkstack, hcheck, if_true]
    rfl

/-- C19 (amended): for every state whose stack has a value `v` on top and a table `t` at a
valid index `i` below it (positive, negative-relative or pseudo): when the stack can still
grow by one slot (its height is below `LUAI_MAXCSTACK`), `lua_rawsetp(L, i, p)` returns,
stores `v` in `t` under the light-userdata key `p` (reading that key gives `v`, every other
key reads as before, every other table is unchanged), pops exactly `v` and leaves the stack
slots below unchanged; and a following `lua_rawgetp(L, i', p)` with any valid index `i'`
that denotes `t` returns and pushes exactly `v` on the stack as `lua_rawsetp` left it,
changing no table. When the stack cannot grow, `lua_rawsetp` raises the error "stack
overflow (not enough stack slots)". -/
theorem rawsetp_rawgetp_round_trip (cfg : lua_config) (L : stack_state) (rest : List TValue)
    (v : TValue) (i : Int) (t p : Nat) (h : List (TValue × TValue))
    (hstack : L.stack = rest ++ [v])
    (hi : (i ≤ cfg.LUA_REGISTRYINDEX ∧ L.pseudo i = some (TValue.table t)) ∨
      (∃ pos, stack_index cfg L i = some pos ∧ pos < rest.length ∧
        rest[pos]? = some (TValue.table t)))
    (htab : L.tables t = some h) :
    (L.stack.length + 1 ≤ cfg.LUAI_MAXCSTACK →
      ∃ L', lua_rawsetp cfg L i p = Except.ok L' ∧ L'.stack = rest ∧
        L'.tables t = some (table_set (TValue.lightuserdata p) v h) ∧
        table_get (TValue.lightuserdata p) (table_set (TValue.lightuserdata p) v h) = v ∧
        (∀ k, k ≠ TValue.lightuserdata p →
          table_get k (table_set (TValue.lightuserdata p) v h) = table_get k h) ∧
        (∀ u, u ≠ t → L'.tables u = L.tables u) ∧ L'.pseudo = L.pseudo ∧
        ∀ i', index2adr cfg L' i' = some (TValue.table t) →
          ∃ L'', lua_rawgetp cfg L' i' p = Except.ok L'' ∧ L''.stack = rest ++ [v] ∧
            L''.tables = L'.tables ∧ L''.pseudo = L'.pseudo) ∧
    (cfg.LUAI_MAXCSTACK < L.stack.length + 1 →
      lua_rawsetp cfg L i p =
        Except.error (lua_fault.error "stack overflow (not enough stack slots)")) := by
  refine ⟨?_, ?_⟩
  · intro hroom
    have hset := lua_rawsetp_ok cfg L rest v i t p h hstack hi htab hroom
    have hM := (config_bounds cfg).2
    have hlen' : L.stack.length = rest.length + 1 := by rw [hstack]; simp
    refine ⟨_, hset, rfl, by simp, table_get_table_set _ _ _,
      fun k hk => table_get_table_set_other _ _ _ hk _, ?_, rfl, ?_⟩
    · intro u hu
      simp [hu]
    · intro i' hi'
      have hget := lua_rawgetp_ok cfg
        { L with
          ci_top := max L.ci_top (L.stack.length + 1)
          tables := fun u =>
            if u = t then some (table_set (TValue.lightuserdata p) v h) else L.tables u
          stack := rest } i' t p (table_set (TValue.lightuserdata p) v h)
        (by simp only []; omega) (by simp only []; omega) hi' (by simp)
      refine ⟨_, hget, ?_, rfl, rfl⟩
      simp only [table_get_table_set]
  · intro hfull
    have hcheck : 1 > cfg.LUAI_MAXCSTACK ∨ L.stack.length + 1 > cfg.LUAI_MAXCSTACK :=
      Or.inr hfull
    simp only [lua_rawsetp, luaL_checkstack, hcheck, if_true]
    rfl

/-- C19 at a concrete input: on the sample stack, `lua_rawsetp(L, -3, 99)` stores the top
value in the table at the bottom and pops it; `lua_rawgetp(L, 1, 99)` pushes it again. -/
theorem rawsetp_rawgetp_round_trip_witness :
    ∃ L', lua_rawsetp lua51 sample_stack (-3) 99 = Except.ok L' ∧
      L'.stack = [TValue.table 0, TValue.string "s"] ∧
      ∃ L'', lua_rawgetp lua51 L' 1 99 = Except.ok L'' ∧
        L''.stack = [TValue.table 0, TValue.string "s"] ++ [TValue.number 7] := by
  obtain ⟨L', h1, h2, _, _, _, _, _, h3⟩ :=
    (rawsetp_rawgetp_round_trip lua51 sample_stack [TValue.table 0, TValue.string "s"]
      (TValue.number 7) (-3) 0 99 [] rfl (Or.inr ⟨0, by decide, by decide, by decide⟩)
      (by decide)).1 (by decide)
  refine ⟨L', h1, h2, ?_⟩
  have hx : index2adr lua51 L' 1 = some (TValue.table 0) := by
    have h := index2adr_absolute lua51 L' 0 (by rw [h2]; decide)
    rw [h2] at h
    exact h
  obtain ⟨L'', h4, h5, _⟩ := h3 1 hx
  exact ⟨L'', h4, h5⟩

end luabind
